import Mathlib

/-!
Verification development for the core of `bedrock-web-pouch-edv`, a
client-side encrypted-data-vault storage engine over PouchDB.

JavaScript values are shallowly embedded:
* strings as `List Char` (`Chars`), byte arrays (`Uint8Array`) as `List Nat`
  with elements below 256 (`Bytes`),
* the PouchDB collection reached through `put`/`find` as a list of records
  in insertion order (`find` with `limit: 1` returns the first match),
* thrown errors as explicit error constructors of per-operation result types,
* `async` code as plain sequential code: every operation runs to completion
  without interleaving, so the optimistic `_rev` conflict (HTTP status 409)
  retry loops of `insertOne`/`updateOne` either run their body once or retry
  forever with an unchanged store (modelled by a `diverge` outcome).

The base58 codec (the external `base58-universal` dependency) is modelled by
the standard base-x big-integer algorithm: count leading zero bytes, convert
the rest to a natural number, and emit base-58 digits, with `'1'` for a
leading zero byte.
-/

namespace PouchEdv

/-- JavaScript strings are modelled as lists of characters. -/
abbrev Chars := List Char

/-- Contents of a `Uint8Array` are lists of naturals; well-formed ones are < 256. -/
abbrev Bytes := List Nat

/-- Every element of a byte array is below 256 (`Uint8Array` well-formedness). -/
def IsBytes (bs : Bytes) : Prop := ∀ b ∈ bs, b < 256

instance (bs : Bytes) : Decidable (IsBytes bs) :=
  inferInstanceAs (Decidable (∀ b ∈ bs, b < 256))

instance {ε α : Type} [DecidableEq ε] [DecidableEq α] : DecidableEq (Except ε α) := fun x y =>
  match x, y with
  | .error e, .error f =>
    if h : e = f then .isTrue (by rw [h]) else .isFalse (by simp [h])
  | .ok a, .ok b =>
    if h : a = b then .isTrue (by rw [h]) else .isFalse (by simp [h])
  | .error _, .ok _ => .isFalse (by simp)
  | .ok _, .error _ => .isFalse (by simp)

/-- Little-endian base-`b` digit expansion, driven by explicit fuel so that the
kernel can evaluate it on concrete numerals.  For `n ≤ fuel` (and `2 ≤ b`) it
agrees with `Nat.digits b n`; this models the repeated divide-by-base loop of
the `base-x` big-number codec used by `base58-universal`. -/
def natDigitsAux (b : Nat) : Nat → Nat → List Nat
  | _, 0 => []
  | 0, _ + 1 => []
  | fuel + 1, n + 1 => (n + 1) % b :: natDigitsAux b fuel ((n + 1) / b)

/-- Little-endian base-`b` digits of `n` (`n` itself is always enough fuel). -/
def natDigits (b n : Nat) : List Nat := natDigitsAux b n n

/-- The base58 (bitcoin) alphabet used by `base58-universal`. -/
def b58Alphabet : Chars :=
  ("123456789ABCDEFGHJKLMNPQRSTUVWXYZabcdefghijkmnopqrstuvwxyz").data

/-- Character of base58 digit `d` (defined for `d < 58`). -/
def b58Char (d : Nat) : Char := b58Alphabet.getD d '?'

/-- Index of a character in a character list (first occurrence). -/
def idxOf? (c : Char) : Chars → Option Nat
  | [] => none
  | a :: rest => if a = c then some 0 else (idxOf? c rest).map (· + 1)

/-- base58-encode a byte array: leading `0x00` bytes become leading `'1'`
characters, the remainder is converted to a natural number whose base-58
digits (most significant first) are emitted through the alphabet. -/
def base58Encode (bs : Bytes) : Chars :=
  let zeros := (bs.takeWhile (fun x => x == 0)).length
  List.replicate zeros '1' ++
    ((natDigits 58 (Nat.ofDigits 256 (bs.drop zeros).reverse)).map b58Char).reverse

/-- Map every character of a base58 string to its digit value; `none` when a
character is not in the alphabet (`base-x` throws there). -/
def base58DigitsOf : Chars → Option (List Nat)
  | [] => some []
  | c :: rest =>
    match idxOf? c b58Alphabet, base58DigitsOf rest with
    | some d, some ds => some (d :: ds)
    | _, _ => none

/-- base58-decode: leading zero digits become leading `0x00` bytes, the rest is
read as a base-58 number and written out in base-256 (most significant
first). -/
def base58Decode (s : Chars) : Option Bytes :=
  match base58DigitsOf s with
  | none => none
  | some ds =>
    let zeros := (ds.takeWhile (fun x => x == 0)).length
    some (List.replicate zeros 0 ++
      (natDigits 256 (Nat.ofDigits 58 (ds.drop zeros).reverse)).reverse)

/-- A thrown JavaScript error, as far as the spec distinguishes them: the
`name` discriminant (`Error`, `TypeError`, `ConstraintError`,
`InvalidStateError`, `NotFoundError`) and the `message`. -/
structure JsError where
  name : Chars
  message : Chars
deriving DecidableEq, Repr

/-- Model of `helpers.js` `multibaseEncode({header, data})`: concatenate and base58
encode with the `'z'` multibase prefix. -/
def multibaseEncode (header data : Bytes) : Chars :=
  'z' :: base58Encode (header ++ data)

/-- Model of `helpers.js` `multibaseDecode({expectedHeader, encoded})`.  The JS checks
`encoded.startsWith('z')`, base58-decodes `encoded.slice(1)` (which throws on a
non-alphabet character), then checks the header with
`expectedHeader.every((val, i) => mcValue[i] === val)` — equivalent to the
header being an initial segment of the decoded bytes — and returns the bytes
after the header. -/
def multibaseDecode (expectedHeader : Bytes) (encoded : Chars) : Except JsError Bytes :=
  if encoded.head? = some 'z' then
    match base58Decode (encoded.drop 1) with
    | none => .error ⟨("Error").data, ("Non-base58 character").data⟩
    | some mcValue =>
      if mcValue.take expectedHeader.length = expectedHeader then
        .ok (mcValue.drop expectedHeader.length)
      else
        .error ⟨("Error").data, ("Multibase value does not have expected header.").data⟩
  else
    .error ⟨("Error").data, ("\"encoded\" must be base58-multibase-encoded.").data⟩

/-- Model of `helpers.js` `multihashEncode({codec, data, multibase})`: only `'z'` is
supported, the data must be shorter than 128 bytes, and the result is the
multibase-base58 encoding of `codec ‖ length ‖ data`. -/
def multihashEncode (codec : Nat) (data : Bytes) (multibase : Char) : Except JsError Chars :=
  if multibase ≠ 'z' then
    .error ⟨("Error").data, ("\"multibase\" character must be \"z\".").data⟩
  else if 128 ≤ data.length then
    .error ⟨("Error").data, ("\"data.length\" must be less than 128.").data⟩
  else
    .ok ('z' :: base58Encode (codec :: data.length :: data))

/-- Model of `helpers.js` `multihashDecode({expectedCodec, expectedSize, encoded})`:
reject expected sizes ≥ 128, multibase-decode against the header
`[expectedCodec, expectedSize]` and check the decoded length. -/
def multihashDecode (expectedCodec expectedSize : Nat) (encoded : Chars) :
    Except JsError Bytes :=
  if 128 ≤ expectedSize then
    .error ⟨("Error").data, ("\"data.length\" must be less than 128.").data⟩
  else
    match multibaseDecode [expectedCodec, expectedSize] encoded with
    | .error e => .error e
    | .ok decoded =>
      if decoded.length = expectedSize then .ok decoded
      else .error ⟨("Error").data, ("Actual decoded data size is not as expected.").data⟩

/-- The condition checked by `assert.localId` (current `assert.js`): the string
starts with `'z'`, its tail base58-decodes, and the decoded bytes are 18 bytes
long with header bytes `0x00 0x10`. -/
def localIdCheck (x : Chars) : Bool :=
  match base58Decode (x.drop 1) with
  | none => false
  | some buf =>
    x.head? == some 'z' && buf.length == 18 && buf.getD 0 255 == 0x00 &&
      buf.getD 1 255 == 0x10

/-- The `ConstraintError` message produced by `assert.localId` for an invalid
identifier `x`. -/
def localIdErrorMessage (x : Chars) : Chars :=
  ("Identifier \"").data ++ x ++
    ("\" must be base58-encoded multibase, multihash array of 16 random bytes.").data

/-- Model of `assert.localId(x)` (current `assert.js`): every failure inside the `try`
block — a base58 decode error or the shape check — is converted into a
`ConstraintError` naming the identifier.  (`assert.string` is type-level
here.) -/
def assertLocalId (x : Chars) : Except JsError Unit :=
  if localIdCheck x then .ok ()
  else .error ⟨("ConstraintError").data, localIdErrorMessage x⟩

/-- Bound used by `assert.nonNegativeSafeInteger`: `Number.isSafeInteger`
admits integers up to `2^53 - 1`. -/
def maxSafeInteger : Nat := 2 ^ 53 - 1

/-- Condition of `assert.nonNegativeSafeInteger` for a natural number. -/
def nonNegativeSafeIntegerOk (n : Nat) : Bool := n ≤ maxSafeInteger

/-- Condition of `assert.sequence`: a non-negative safe integer strictly below
`Number.MAX_SAFE_INTEGER`. -/
def sequenceOk (n : Nat) : Bool := n < maxSafeInteger

/-- A record stored in a PouchDB collection: the primary key `_id`, the
revision `_rev` (modelled as a counter; PouchDB uses `<n>-<hash>` strings and
compares them for equality, which the counter captures in a sequential run),
and the remaining fields `body`. -/
structure DbRecord (α : Type) where
  _id : Chars
  _rev : Nat
  body : α
deriving DecidableEq, Repr

/-- A PouchDB collection in insertion order. -/
abbrev DbState (α : Type) := List (DbRecord α)

/-- Selectors are modelled by the predicate they denote on stored records. -/
abbrev Sel (α : Type) := DbRecord α → Bool

/-- The selector `{_id: i}`. -/
def selById {α : Type} (i : Chars) : Sel α := fun r => r._id == i

/-- Model of `find({selector, limit: 1, ...options})` as used by
`_getExisting`: the first record matching the selector, if any. -/
def findOne {α : Type} (st : DbState α) (sel : Sel α) : Option (DbRecord α) :=
  st.find? sel

/-- Well-formedness of a collection: primary keys are unique (PouchDB
enforces `_id` uniqueness). -/
def DbWf {α : Type} (st : DbState α) : Prop := (st.map DbRecord._id).Nodup

instance {α : Type} (st : DbState α) : Decidable (DbWf st) :=
  inferInstanceAs (Decidable (st.map DbRecord._id).Nodup)

/-- Model of `put(doc)` for a document without `_rev`: fails with a 409
conflict when a record with the same `_id` exists, otherwise appends the
record at revision 1. -/
def putNew {α : Type} (st : DbState α) (i : Chars) (body : α) :
    Option (DbRecord α × DbState α) :=
  match findOne st (selById i) with
  | some _ => none
  | none => some (⟨i, 1, body⟩, st ++ [⟨i, 1, body⟩])

/-- Model of `put({_id, _rev, ...doc})`: succeeds exactly when a record with
this `_id` exists at revision `rev`, replacing it in place at revision
`rev + 1`; anything else is a 409 conflict. -/
def putReplace {α : Type} (st : DbState α) (i : Chars) (rev : Nat) (body : α) :
    Option (DbRecord α × DbState α) :=
  match findOne st (selById i) with
  | none => none
  | some r =>
    if r._rev = rev then
      some (⟨i, rev + 1, body⟩, st.map fun r0 => if r0._id == i then ⟨i, rev + 1, body⟩ else r0)
    else none

/-- Outcome of `insertOne` in a sequential run.  `diverge` is a 409 conflict
from `put`: the JS loop retries with an unchanged store, hence forever. -/
inductive InsertOutcome (α : Type) where
  | ok (record : DbRecord α) (st : DbState α)
  | constraintError (existing : DbRecord α) (st : DbState α)
  | diverge
deriving DecidableEq, Repr

/-- A fresh server-chosen id for `post(doc)` (longer than any stored id, hence
unused). -/
def freshPostId {α : Type} (st : DbState α) : Chars :=
  List.replicate ((st.map fun r => r._id.length).foldr max 0 + 1) 'p'

/-- The effective uniqueness-constraint list: the implicit `{_id: doc._id}`
constraint is appended when `doc._id` is set (`uniqueConstraints.push(...)`). -/
def withIdConstraint {α : Type} (docId : Option Chars) (ucs : List (Sel α)) :
    List (Sel α) :=
  match docId with
  | some i => ucs ++ [selById i]
  | none => ucs

/-- Model of the `insertOne` plugin of `pouchdb.js` (the version with the
`purge` support).  An implicit `{_id: doc._id}` constraint is appended when
`doc._id` is set; then `const [existing] = await Promise.all(...)` examines
only the FIRST constraint's query result; if it is a hit the function throws
`ConstraintError` (with `error.existing` set) before any write, otherwise it
`put`s (`post`s when `doc._id` is unset). -/
def insertOne {α : Type} (st : DbState α) (docId : Option Chars) (body : α)
    (uniqueConstraints : List (Sel α)) : InsertOutcome α :=
  match ((withIdConstraint docId uniqueConstraints).map (findOne st)).head? with
  | some (some existing) => .constraintError existing st
  | _ =>
    match docId with
    | some i =>
      match putNew st i body with
      | some (r, st') => .ok r st'
      | none => .diverge
    | none => .ok ⟨freshPostId st, 1, body⟩ (st ++ [⟨freshPostId st, 1, body⟩])

/-- Message of the `ConstraintError` thrown by `insertOne`. -/
def insertConstraintMessage : Chars :=
  ("Could not insert document; uniqueness constraint violation.").data

/-- Message of the `ConstraintError` thrown by `updateOne`. -/
def updateConstraintMessage : Chars :=
  ("Could not update document; uniqueness constraint violation.").data

/-- Outcome of `updateOne` in a sequential run.  `noMatch` is the `false`
return; `constraintError` carries `error.existing`, which is `none` when the
offending uniqueness query returned no record at all (`record?._id` is
`undefined` in the JS).  The `message` distinguishes the error thrown by
`updateOne` itself from one propagated out of a delegated `insertOne`. -/
inductive UpdateOutcome (α : Type) where
  | ok (record : DbRecord α) (st : DbState α)
  | noMatch (st : DbState α)
  | constraintError (message : Chars) (existing : Option (DbRecord α)) (st : DbState α)
  | diverge
deriving DecidableEq, Repr

/-- Whether an `updateOne` outcome is a thrown `ConstraintError`. -/
def UpdateOutcome.isConstraintError {α : Type} : UpdateOutcome α → Bool
  | .constraintError _ _ _ => true
  | _ => false

/-- Model of the `updateOne` plugin of `pouchdb.js` (the version with the
`purge` support): look up the record matched by the query selector; if none,
return `false` or delegate to `insertOne` when `upsert` is set.  Otherwise
append the implicit `{_id: doc._id}` constraint, query every constraint, and
throw `ConstraintError` at the first whose result does not have the matched
record's `_id` — including a missing result (`existing._id !== record?._id`
with `record === undefined`).  Otherwise `put` with the matched record's
`_rev` (and `_id` overridden by `doc._id` via object spread when set). -/
def updateOne {α : Type} (st : DbState α) (docId : Option Chars) (body : α)
    (sel : Sel α) (upsert : Bool) (uniqueConstraints : List (Sel α)) :
    UpdateOutcome α :=
  match findOne st sel with
  | none =>
    if upsert then
      match insertOne st docId body uniqueConstraints with
      | .ok r st' => .ok r st'
      | .constraintError e st' => .constraintError insertConstraintMessage (some e) st'
      | .diverge => .diverge
    else .noMatch st
  | some existing =>
    match ((withIdConstraint docId uniqueConstraints).map (findOne st)).find?
        (fun h => h.map DbRecord._id != some existing._id) with
    | some offender => .constraintError updateConstraintMessage offender st
    | none =>
      match putReplace st (docId.getD existing._id) existing._rev body with
      | some (r, st') => .ok r st'
      | none => .diverge

/-- UTF-8 bytes of one character (the encoding used by `TextEncoder` and by
`encodeURIComponent` for non-ASCII characters). -/
def utf8Bytes (c : Char) : Bytes :=
  let n := c.toNat
  if n < 0x80 then [n]
  else if n < 0x800 then [0xC0 + n / 64, 0x80 + n % 64]
  else if n < 0x10000 then
    [0xE0 + n / 4096, 0x80 + n / 64 % 64, 0x80 + n % 64]
  else
    [0xF0 + n / 262144, 0x80 + n / 4096 % 64, 0x80 + n / 64 % 64, 0x80 + n % 64]

/-- UTF-8 encoding of a string (`new TextEncoder().encode(s)`). -/
def utf8Encode (s : Chars) : Bytes := s.flatMap utf8Bytes

/-- Uppercase hexadecimal digit. -/
def hexUpper (n : Nat) : Char := ("0123456789ABCDEF").data.getD n '0'

/-- Characters `encodeURIComponent` leaves unescaped:
`A–Z a–z 0–9 - _ . ! ~ * ' ( )`. -/
def uriUnescaped (c : Char) : Bool :=
  c.isAlpha || c.isDigit ||
    c ∈ ['-', '_', '.', '!', '~', '*', '\'', '(', ')']

/-- Model of the JS builtin `encodeURIComponent`: unescaped characters pass
through, every other character is percent-encoded byte-by-byte in UTF-8. -/
def encodeURIComponent (s : Chars) : Chars :=
  s.flatMap fun c =>
    if uriUnescaped c then [c]
    else (utf8Bytes c).flatMap fun b => ['%', hexUpper (b / 16), hexUpper (b % 16)]

/-- One blinded attribute of an indexed entry: already-HMACed `name` and
`value`, plus the optional `unique` flag (absent = `false`). -/
structure IndexedAttr where
  name : Chars
  value : Chars
  unique : Bool
deriving DecidableEq, Repr

/-- One entry of `doc.indexed`: the reference `hmac.id` and its attribute
list (an absent `attributes` array behaves like an empty one — the JS loop
skips the entry). -/
structure IndexedEntry where
  hmacId : Chars
  attributes : List IndexedAttr
deriving DecidableEq, Repr

/-- An encrypted EDV document as validated by `assert.doc`: `id`, `sequence`,
the opaque `jwe` payload, and the optional `indexed` array (absent = `[]`). -/
structure EdvDoc where
  id : Chars
  sequence : Nat
  jwe : Chars
  indexed : List IndexedEntry
deriving DecidableEq, Repr

/-- Blinded attribute name component: `encodeURIComponent(hmac.id) + ":" +
encodeURIComponent(attr.name)` (from `_buildAttributesIndex`). -/
def attrName (e : IndexedEntry) (a : IndexedAttr) : Chars :=
  encodeURIComponent e.hmacId ++ ':' :: encodeURIComponent a.name

/-- Full blinded attribute component: the name plus `":" +
encodeURIComponent(attr.value)`. -/
def attrFull (e : IndexedEntry) (a : IndexedAttr) : Chars :=
  attrName e a ++ ':' :: encodeURIComponent a.value

/-- The `attributes` array built by `_buildAttributesIndex`. -/
def docAttributes (doc : EdvDoc) : List Chars :=
  doc.indexed.flatMap fun e => e.attributes.map fun a => attrFull e a

/-- The `attributeNames` array built by `_buildAttributesIndex`. -/
def docAttributeNames (doc : EdvDoc) : List Chars :=
  doc.indexed.flatMap fun e => e.attributes.map fun a => attrName e a

/-- The `uniqueAttributes` array built by `_buildAttributesIndex` (only
attributes with the `unique` flag). -/
def docUniqueAttributes (doc : EdvDoc) : List Chars :=
  doc.indexed.flatMap fun e =>
    (e.attributes.filter fun a => a.unique).map fun a => attrFull e a

/-- Stored shape of a document record (`_createRecord` in `docs.js`): an empty
derived array stands for the field being absent, which is observationally
equal for every selector the module issues. -/
structure DocBody where
  localEdvId : Chars
  doc : EdvDoc
  attributes : List Chars
  attributeNames : List Chars
  uniqueAttributes : List Chars
  deleted : Bool
deriving DecidableEq, Repr

/-- Record `_id` for a document: `"<localEdvId>:<docId>"` (`_createId`). -/
def docRecordId (localEdvId docId : Chars) : Chars := localEdvId ++ ':' :: docId

/-- Model of `parseLocalId` in `helpers.js`: the id is returned unchanged. -/
def parseLocalId (id : Chars) : Chars := id

/-- Record body built by `_createRecord`. -/
def createDocBody (edvId : Chars) (doc : EdvDoc) (deleted : Bool) : DocBody :=
  { localEdvId := parseLocalId edvId
    doc := doc
    attributes := docAttributes doc
    attributeNames := docAttributeNames doc
    uniqueAttributes := docUniqueAttributes doc
    deleted := deleted }

/-- The uniqueness-constraint selectors built by `_createRecord`: one selector
`{localEdvId, uniqueAttributes: {$in: uniqueAttributes}}` when the document
carries unique attributes, none otherwise.  (`$in` on an array field matches
records whose array contains one of the given values.) -/
def docUniqueConstraintSels (localEdvId : Chars) (uniqueAttributes : List Chars) :
    List (Sel DocBody) :=
  if uniqueAttributes.isEmpty then []
  else
    [fun r =>
      r.body.localEdvId == localEdvId &&
        r.body.uniqueAttributes.any fun u => uniqueAttributes.contains u]

/-- Model of `assert.doc`: `assert.localId(doc.id)` plus the `assert.sequence`
bound (the `object`/`array` shape checks are type-level in this embedding). -/
def assertDoc (doc : EdvDoc) : Except JsError Unit :=
  match assertLocalId doc.id with
  | .error e => .error e
  | .ok _ =>
    if sequenceOk doc.sequence then .ok ()
    else .error ⟨("TypeError").data,
      ("\"doc.sequence\" must be a non-negative safe integer.").data⟩

/-- Outcome of `docs.upsert`.  `typeError` is the crash that occurs in the
`catch` block when `e.existing` is `undefined` and `e.existing._id` is read;
`constraintError` is the rethrown constraint error for a different record. -/
inductive DocsUpsertOutcome where
  | ok (record : DbRecord DocBody) (st : DbState DocBody)
  | invalidState (message : Chars) (st : DbState DocBody)
  | constraintError (message : Chars) (existing : Option (DbRecord DocBody))
      (st : DbState DocBody)
  | assertError (e : JsError) (st : DbState DocBody)
  | typeError (st : DbState DocBody)
  | diverge
deriving DecidableEq, Repr

/-- The `InvalidStateError` message of `docs.upsert`. -/
def docSequenceMessage : Chars :=
  ("Could not update document. Sequence does not match.").data

/-- Model of `docs.upsert({edvId, doc, deleted})`: build the record, call
`updateOne` with selector `{_id, 'doc.sequence': doc.sequence - 1}` and
`upsert: true`, and translate a `ConstraintError` about the document's own
`_id` into an `InvalidStateError`.  Reading `e.existing._id` crashes with a
`TypeError` when the error carries no `existing` record. -/
def docsUpsert (st : DbState DocBody) (edvId : Chars) (doc : EdvDoc)
    (deleted : Bool) : DocsUpsertOutcome :=
  match assertDoc doc with
  | .error e => .assertError e st
  | .ok _ =>
    let localEdvId := parseLocalId edvId
    let body := createDocBody edvId doc deleted
    let recId := docRecordId localEdvId doc.id
    let ucs := docUniqueConstraintSels localEdvId body.uniqueAttributes
    let sel : Sel DocBody := fun r =>
      r._id == recId && ((r.body.doc.sequence : Int) == (doc.sequence : Int) - 1)
    match updateOne st (some recId) body sel true ucs with
    | .ok r st' => .ok r st'
    | .noMatch st' => .typeError st'
    | .constraintError msg (some ex) st' =>
      if ex._id = recId then .invalidState docSequenceMessage st'
      else .constraintError msg (some ex) st'
    | .constraintError _ none st' => .typeError st'
    | .diverge => .diverge

/-- Outcome of `docs.insert`. -/
inductive DocsInsertOutcome where
  | ok (record : DbRecord DocBody) (st : DbState DocBody)
  | constraintError (existing : DbRecord DocBody) (st : DbState DocBody)
  | assertError (e : JsError) (st : DbState DocBody)
  | diverge
deriving DecidableEq, Repr

/-- Model of `docs.insert({edvId, doc})`: build the record and call
`insertOne` with the unique-attribute constraints. -/
def docsInsert (st : DbState DocBody) (edvId : Chars) (doc : EdvDoc) :
    DocsInsertOutcome :=
  match assertDoc doc with
  | .error e => .assertError e st
  | .ok _ =>
    let localEdvId := parseLocalId edvId
    let body := createDocBody edvId doc false
    let recId := docRecordId localEdvId doc.id
    let ucs := docUniqueConstraintSels localEdvId body.uniqueAttributes
    match insertOne st (some recId) body ucs with
    | .ok r st' => .ok r st'
    | .constraintError e st' => .constraintError e st'
    | .diverge => .diverge

/-- Model of `docs.get({edvId, id})`: look the record up by
`"<localEdvId>:<id>"`, `NotFoundError` when absent. -/
def docsGet (st : DbState DocBody) (edvId id : Chars) :
    Except JsError (DbRecord DocBody) :=
  match assertLocalId id with
  | .error e => .error e
  | .ok _ =>
    match findOne st (selById (docRecordId (parseLocalId edvId) id)) with
    | some r => .ok r
    | none => .error ⟨("NotFoundError").data, ("Document not found.").data⟩

/-- Parameters of the reusable `ConfigStorage` class: how to read a config's
`id` and `sequence`, and the injected `assertConfig` (`none` = passes). -/
structure ConfigShape (γ : Type) where
  idOf : γ → Chars
  seqOf : γ → Nat
  assertConfig : γ → Option JsError

/-- Outcome of `ConfigStorage.insert`/`update`. -/
inductive ConfigOutcome (γ : Type) where
  | ok (record : DbRecord γ) (st : DbState γ)
  | constraintError (message : Chars) (existing : Option (DbRecord γ)) (st : DbState γ)
  | invalidState (message : Chars) (st : DbState γ)
  | jsError (e : JsError) (st : DbState γ)
  | diverge
deriving DecidableEq, Repr

/-- Model of `ConfigStorage.insert({config})`: assert, require `sequence == 0`
and `insertOne` the record `{_id: config.id, config}` (only the implicit `_id`
constraint applies). -/
def configInsert {γ : Type} (C : ConfigShape γ) (st : DbState γ) (config : γ) :
    ConfigOutcome γ :=
  match C.assertConfig config with
  | some e => .jsError e st
  | none =>
    if C.seqOf config ≠ 0 then
      .jsError ⟨("Error").data, ("Configuration sequence must be \"0\".").data⟩ st
    else
      match insertOne st (some (C.idOf config)) config [] with
      | .ok r st' => .ok r st'
      | .constraintError e st' => .constraintError insertConstraintMessage (some e) st'
      | .diverge => .diverge

/-- The `InvalidStateError` message of `ConfigStorage.update`. -/
def configSequenceMessage : Chars :=
  ("Could not update configuration. Sequence does not match or configuration does not exist.").data

/-- Model of `ConfigStorage.update({config})`: `updateOne` the record
`{_id: config.id, config}` with selector
`{_id: config.id, 'config.sequence': config.sequence - 1}` and no upsert; a
`false` result becomes the `InvalidStateError`. -/
def configUpdate {γ : Type} (C : ConfigShape γ) (st : DbState γ) (config : γ) :
    ConfigOutcome γ :=
  match C.assertConfig config with
  | some e => .jsError e st
  | none =>
    let i := C.idOf config
    let sel : Sel γ := fun r =>
      r._id == i && ((C.seqOf r.body : Int) == (C.seqOf config : Int) - 1)
    match updateOne st (some i) config sel false [] with
    | .ok r st' => .ok r st'
    | .noMatch st' => .invalidState configSequenceMessage st'
    | .constraintError m ex st' => .constraintError m ex st'
    | .diverge => .diverge

/-- Model of `ConfigStorage.get({id})`. -/
def configGet {γ : Type} (st : DbState γ) (id : Chars) :
    Except JsError (DbRecord γ) :=
  match findOne st (selById id) with
  | some r => .ok r
  | none => .error ⟨("NotFoundError").data, ("Configuration not found.").data⟩

/-- An EDV document chunk as validated by `assert.chunk`. -/
structure EdvChunk where
  sequence : Nat
  index : Nat
  offset : Nat
  jwe : Chars
deriving DecidableEq, Repr

/-- Stored shape of a chunk record. -/
structure ChunkBody where
  localEdvId : Chars
  docId : Chars
  chunk : EdvChunk
deriving DecidableEq, Repr

/-- Model of `assert.chunk`: the numeric bounds of `index`, `offset` and
`sequence` (`object` checks are type-level). -/
def assertChunk (c : EdvChunk) : Except JsError Unit :=
  if ¬ nonNegativeSafeIntegerOk c.index then
    .error ⟨("TypeError").data, ("\"chunk.index\" must be a non-negative safe integer.").data⟩
  else if ¬ nonNegativeSafeIntegerOk c.offset then
    .error ⟨("TypeError").data, ("\"chunk.offset\" must be a non-negative safe integer.").data⟩
  else if ¬ sequenceOk c.sequence then
    .error ⟨("TypeError").data, ("\"chunk.sequence\" must be a non-negative safe integer.").data⟩
  else .ok ()

/-- Record `_id` for a chunk: `"<localEdvId>:<docId>:<chunk.index>"`. -/
def chunkRecordId (localEdvId docId : Chars) (index : Nat) : Chars :=
  localEdvId ++ ':' :: docId ++ ':' :: (Nat.repr index).data

/-- The `InvalidStateError` message of `chunks.upsert`. -/
def chunkSequenceMessage : Chars :=
  ("Could not update document chunk. Sequence does not match the associated document.").data

/-- Outcome of `chunks.upsert`.  `okExisting` is the benign-concurrent-upsert
return of `e.existing`; `invalidState` carries the `expected` (document) and
`actual` (chunk) sequences attached to the error; `typeError` is the crash on
`e.existing._id` when `existing` is `undefined`. -/
inductive ChunksUpsertOutcome where
  | ok (record : DbRecord ChunkBody) (st : DbState ChunkBody)
  | okExisting (existing : DbRecord ChunkBody) (st : DbState ChunkBody)
  | invalidState (message : Chars) (expected actual : Nat) (st : DbState ChunkBody)
  | constraintError (message : Chars) (existing : Option (DbRecord ChunkBody))
      (st : DbState ChunkBody)
  | jsError (e : JsError) (st : DbState ChunkBody)
  | typeError (st : DbState ChunkBody)
  | diverge
deriving DecidableEq, Repr

/-- Model of `chunks.upsert({edvId, docId, chunk})`: validate, fetch the
associated document (its errors propagate), compare sequences, then
`updateOne` with selector `{_id}` and `upsert: true`; a `ConstraintError`
for the same `_id` returns the existing record. -/
def chunksUpsert (docsSt : DbState DocBody) (st : DbState ChunkBody)
    (edvId docId : Chars) (chunk : EdvChunk) : ChunksUpsertOutcome :=
  match assertLocalId docId with
  | .error e => .jsError e st
  | .ok _ =>
    match assertChunk chunk with
    | .error e => .jsError e st
    | .ok _ =>
      match docsGet docsSt edvId docId with
      | .error e => .jsError e st
      | .ok docRec =>
        if chunk.sequence ≠ docRec.body.doc.sequence then
          .invalidState chunkSequenceMessage docRec.body.doc.sequence chunk.sequence st
        else
          let localEdvId := parseLocalId edvId
          let recId := chunkRecordId localEdvId docId chunk.index
          let body : ChunkBody := ⟨localEdvId, docId, chunk⟩
          match updateOne st (some recId) body (selById recId) true [] with
          | .ok r st' => .ok r st'
          | .noMatch st' => .typeError st'
          | .constraintError msg (some ex) st' =>
            if ex._id = recId then .okExisting ex st'
            else .constraintError msg (some ex) st'
          | .constraintError _ none st' => .typeError st'
          | .diverge => .diverge

/-- An EDV query as validated by `assert.edvQuery`: `index` plus exactly one
of `equals` (a list of objects, each an ordered list of name/value string
pairs as seen by `Object.entries`) or `has` (a list of names). -/
structure EdvQueryInput where
  index : Chars
  equals : Option (List (List (Chars × Chars)))
  has : Option (List Chars)
  count : Option Bool
  limit : Option Nat
deriving DecidableEq, Repr

/-- Model of `assert.edvQuery`: exactly one of `equals`/`has`, both non-empty
when present, and `1 ≤ limit ≤ 1000` when present (string/object/boolean
checks are type-level). -/
def assertEdvQuery (q : EdvQueryInput) : Option JsError :=
  if q.equals.isSome == q.has.isSome then
    some ⟨("TypeError").data,
      ("\"edvQuery\" must contain exactly one of \"equals\" or \"has\".").data⟩
  else if q.equals.isSome && (q.equals.getD []).isEmpty then
    some ⟨("Error").data, ("\"edvQuery.equals\" must have of a length > 0.").data⟩
  else if q.has.isSome && (q.has.getD []).isEmpty then
    some ⟨("Error").data, ("\"edvQuery.equals\" must have of a length > 0.").data⟩
  else
    match q.limit with
    | some l =>
      if 1 ≤ l && l ≤ 1000 then none
      else some ⟨("Error").data,
        ("\"edvQuery.limit\" must be an integer >= 1 and <= 1000.").data⟩
    | none => none

/-- The query object produced by `docs.createQuery`: the parts of the selector
(`localEdvId`, the `attributes: {$gt: null}` planner hint, the `$or` branches
— each the `$all` list of one `{attributes: {$all: [...]}}` branch — or the
`attributeNames: {$all: [...]}` condition) and `options.use_index`. -/
structure DocQuery where
  selLocalEdvId : Chars
  selAttributesGtNull : Bool
  selOr : Option (List (List Chars))
  selAttributeNamesAll : Option (List Chars)
  use_index : List Chars
deriving DecidableEq, Repr

/-- Model of `docs.createQuery({edvId, edvQuery})`. -/
def createQuery (edvId : Chars) (q : EdvQueryInput) : Except JsError DocQuery :=
  match assertEdvQuery q with
  | some e => .error e
  | none =>
    let encodedIndex := encodeURIComponent q.index
    let localEdvId := parseLocalId edvId
    match q.equals with
    | some eqs =>
      .ok { selLocalEdvId := localEdvId
            selAttributesGtNull := true
            selOr := some (eqs.map fun e =>
              e.map fun nv =>
                encodedIndex ++ ':' :: encodeURIComponent nv.1 ++
                  ':' :: encodeURIComponent nv.2)
            selAttributeNamesAll := none
            use_index := [("edv-doc").data, ("attributes").data] }
    | none =>
      match q.has with
      | some hs =>
        .ok { selLocalEdvId := localEdvId
              selAttributesGtNull := false
              selOr := none
              selAttributeNamesAll := some (hs.map fun name =>
                encodedIndex ++ ':' :: encodeURIComponent name)
              use_index := [("edv-doc").data, ("attributes.name").data] }
      | none =>
        .error ⟨("TypeError").data, ("unreachable after assert.edvQuery").data⟩

/-- External cryptographic primitives used by the secrets module, modelled as
deterministic functions: PBKDF2-SHA-256 (`password, salt, iterations,
bitLength`), AES-KW wrap/unwrap under a raw KEK secret (unwrap throws on an
integrity failure, which `Kek.unwrapKey` catches), and HMAC-SHA-256. -/
structure CryptoSuite where
  pbkdf2Sha256 : Chars → Bytes → Nat → Nat → Bytes
  aeskwWrap : Bytes → Bytes → Bytes
  aeskwUnwrap : Bytes → Bytes → Except Chars Bytes
  hmacSha256 : Bytes → Bytes → Bytes

/-- Model of `Kek.unwrapKey`: `crypto.subtle.unwrapKey` inside `try`/`catch`,
returning `null` on failure rather than throwing. -/
def kekUnwrapKey (cs : CryptoSuite) (kekSecret wrappedKey : Bytes) : Option Bytes :=
  match cs.aeskwUnwrap kekSecret wrappedKey with
  | .ok b => some b
  | .error _ => none

/-- An `Hmac` instance: its raw secret and the `id` attached by the secrets
module (type `Sha256HmacKey2019`, algorithm `HS256` are constants). -/
structure HmacKey where
  id : Option Chars
  secret : Bytes
deriving DecidableEq, Repr

/-- A key-agreement key: `X25519Kak` (type `X25519KeyAgreementKey2020`)
derived from a secret, or `P256Kak` (type `Multikey`) imported from raw
secret/public key bytes. -/
inductive KeyAgreementKey where
  | x25519 (id : Option Chars) (secret : Bytes)
  | p256 (id : Option Chars) (secretKey publicKey : Bytes)
deriving DecidableEq, Repr

/-- The `id` field of a key-agreement key. -/
def KeyAgreementKey.keyId : KeyAgreementKey → Option Chars
  | .x25519 i _ => i
  | .p256 i _ _ => i

/-- Set the `id` field of a key-agreement key. -/
def KeyAgreementKey.withId (k : KeyAgreementKey) (i : Chars) : KeyAgreementKey :=
  match k with
  | .x25519 _ s => .x25519 (some i) s
  | .p256 _ s p => .p256 (some i) s p

/-- The `secret` part of a secret config. -/
structure SecretData where
  version : Chars
  salt : Chars
  wrappedKey : Chars
  wrappedKeyAgreementKey : Option Chars
deriving DecidableEq, Repr

/-- A secret configuration (`secrets.js`). -/
structure SecretConfig where
  id : Chars
  hmacId : Chars
  keyAgreementKeyId : Chars
  secret : SecretData
  sequence : Nat
deriving DecidableEq, Repr

/-- A key reference carried by a vault configuration: `{id, type}` strings. -/
structure KeyRef where
  id : Chars
  type : Chars
deriving DecidableEq, Repr

/-- A vault (EDV) configuration as validated by `assert.edvConfig`. -/
structure EdvConfig where
  id : Chars
  controller : Chars
  sequence : Nat
  hmac : KeyRef
  keyAgreementKey : KeyRef
deriving DecidableEq, Repr

/-- Model of `assert.edvConfig` (current `assert.js`): `config.id`,
`config.controller` and the key reference fields are only checked to be
strings/objects — type-level here — so the single value-level check is the
`assert.sequence` bound.  In particular no identifier-format check is
performed on `config.id`. -/
def assertEdvConfig (c : EdvConfig) : Option JsError :=
  if ¬ sequenceOk c.sequence then
    some ⟨("TypeError").data,
      ("\"config.sequence\" must be a non-negative safe integer.").data⟩
  else none

/-- Model of `assert.secretConfig`: all ids are only checked to be strings
(type-level here); the value-level checks are `secret.version === '1'` and the
`assert.sequence` bound. -/
def assertSecretConfig (c : SecretConfig) : Option JsError :=
  if c.secret.version ≠ ("1").data then
    some ⟨("Error").data, ("\"config.secret.version\" must be \"1\".").data⟩
  else if ¬ sequenceOk c.sequence then
    some ⟨("TypeError").data, ("\"config.sequence\" must be a non-negative safe integer.").data⟩
  else none

/-- Version-`"1"` PBKDF2 iteration count. -/
def iterationsV1 : Nat := 100000
/-- Version-`"1"` wrapped-KDK size: 32-byte key + 8-byte AES-KW overhead. -/
def wrappedKeySizeV1 : Nat := 40
/-- Version-`"1"` salt size. -/
def saltSizeV1 : Nat := 16
/-- Unwrapped P-256 KAK blob: 32 secret + 33 public + 7 padding bytes. -/
def unwrappedKakSize : Nat := 72
/-- Wrapped P-256 KAK blob: 72 bytes + 8-byte AES-KW overhead. -/
def wrappedKakSize : Nat := 80

/-- Model of `_deriveKek` with the salt made explicit (in `generate` the salt
is fresh randomness threaded in from the entropy record; in `decrypt` it is
the decoded stored salt): PBKDF2 with 100000 iterations deriving 256 bits,
imported as an AES-KW KEK. -/
def deriveKekSecret (cs : CryptoSuite) (password : Chars) (salt : Bytes) : Bytes :=
  cs.pbkdf2Sha256 password salt iterationsV1 256

/-- Model of `Uint8Array.prototype.set`: overwrite `buf` starting at `offset`
with `src` (callers keep `offset + src.length ≤ buf.length`). -/
def setBytes (buf : Bytes) (offset : Nat) (src : Bytes) : Bytes :=
  buf.take offset ++ src ++ buf.drop (offset + src.length)

/-- Model of `_deriveKeys({kdk, kek, secret})`: the HMAC sub-key is
`kdk.sign(utf8("hmac"))`; with a stored `wrappedKeyAgreementKey` (fips) the
P-256 key is unwrapped (failure throws `Invalid stored key agreement key.`)
and split as 32 secret + 33 public bytes, otherwise the X25519 key is derived
from `kdk.sign(utf8("keyAgreementKey"))`. -/
def deriveKeys (cs : CryptoSuite) (kdkSecret kekSecret : Bytes)
    (secret : SecretData) : Except JsError (HmacKey × KeyAgreementKey × Chars) :=
  let hmacSecret := cs.hmacSha256 kdkSecret (utf8Encode (("hmac").data))
  let hmac : HmacKey := ⟨none, hmacSecret⟩
  match secret.wrappedKeyAgreementKey with
  | some enc =>
    match multihashDecode 0 wrappedKakSize enc with
    | .error e => .error e
    | .ok wkak =>
      match kekUnwrapKey cs kekSecret wkak with
      | none => .error ⟨("Error").data, ("Invalid stored key agreement key.").data⟩
      | some u =>
        .ok (hmac, .p256 none (u.take 32) ((u.drop 32).take 33), ("fips").data)
  | none =>
    let kakSecret := cs.hmacSha256 kdkSecret (utf8Encode (("keyAgreementKey").data))
    .ok (hmac, .x25519 none kakSecret, ("recommended").data)

/-- Fresh randomness consumed by one run of `secrets.generate`: the generated
KDK's raw bytes, the PBKDF2 salt, the raw P-256 keypair (fips only) and the
two UUIDs. -/
structure GenEntropy where
  kdkSecret : Bytes
  salt : Bytes
  p256SecretKey : Bytes
  p256PublicKey : Bytes
  hmacUuid : Chars
  kakUuid : Chars

/-- Result of `secrets.generate`. -/
structure GenResult where
  hmac : HmacKey
  keyAgreementKey : KeyAgreementKey
  config : SecretConfig
deriving DecidableEq, Repr

/-- Result of a successful `secrets.decrypt`. -/
structure DecryptResult where
  hmac : HmacKey
  keyAgreementKey : KeyAgreementKey
  cipherVersion : Chars
deriving DecidableEq, Repr

/-- Model of `secrets.generate({id, version, password, cipherVersion})`:
derive the KEK from the password and fresh salt, wrap the fresh KDK, for
`fips` additionally wrap the 72-byte raw P-256 keypair blob, store everything
multihash-encoded, derive the sub-keys and attach fresh `urn:uuid:` ids. -/
def secretsGenerate (cs : CryptoSuite) (ent : GenEntropy) (id : Chars)
    (version : Chars) (password : Chars) (cipherVersion : Chars) :
    Except JsError GenResult :=
  if version ≠ ("1").data then
    .error ⟨("Error").data, ("\"version\" must be \"1\".").data⟩
  else
    let kekSecret := deriveKekSecret cs password ent.salt
    let wrappedKey := cs.aeskwWrap kekSecret ent.kdkSecret
    match multihashEncode 0 ent.salt 'z', multihashEncode 0 wrappedKey 'z' with
    | .error e, _ => .error e
    | _, .error e => .error e
    | .ok saltEnc, .ok wrappedEnc =>
      let fipsPart : Except JsError (Option Chars) :=
        if cipherVersion = ("fips").data then
          let unwrappedKak :=
            setBytes (setBytes (List.replicate unwrappedKakSize 0) 0 ent.p256SecretKey)
              ent.p256SecretKey.length ent.p256PublicKey
          match multihashEncode 0 (cs.aeskwWrap kekSecret unwrappedKak) 'z' with
          | .error e => .error e
          | .ok enc => .ok (some enc)
        else .ok none
      match fipsPart with
      | .error e => .error e
      | .ok wkakEnc =>
        let secret : SecretData :=
          ⟨("1").data, saltEnc, wrappedEnc, wkakEnc⟩
        match deriveKeys cs ent.kdkSecret kekSecret secret with
        | .error e => .error e
        | .ok (hmac, kak, _) =>
          let config : SecretConfig :=
            { id := id
              hmacId := ("urn:uuid:").data ++ ent.hmacUuid
              keyAgreementKeyId := ("urn:uuid:").data ++ ent.kakUuid
              secret := secret
              sequence := 0 }
          .ok { hmac := { hmac with id := some config.hmacId }
                keyAgreementKey := kak.withId config.keyAgreementKeyId
                config := config }

/-- Model of `secrets.decrypt({config, password})`: re-derive the KEK from the
stored salt, unwrap the stored KDK (`none` = invalid password, returned as
`null`, never thrown), then derive the sub-keys and attach the stored ids. -/
def secretsDecrypt (cs : CryptoSuite) (config : SecretConfig) (password : Chars) :
    Except JsError (Option DecryptResult) :=
  match assertSecretConfig config with
  | some e => .error e
  | none =>
    match multihashDecode 0 saltSizeV1 config.secret.salt with
    | .error e => .error e
    | .ok salt =>
      let kekSecret := deriveKekSecret cs password salt
      match multihashDecode 0 wrappedKeySizeV1 config.secret.wrappedKey with
      | .error e => .error e
      | .ok wk =>
        match kekUnwrapKey cs kekSecret wk with
        | none => .ok none
        | some kdkSecret =>
          match deriveKeys cs kdkSecret kekSecret config.secret with
          | .error e => .error e
          | .ok (hmac, kak, cipherVersion) =>
            .ok (some { hmac := { hmac with id := some config.hmacId }
                        keyAgreementKey := kak.withId config.keyAgreementKeyId
                        cipherVersion := cipherVersion })

/-- The `ConfigShape` used by the secrets module
(`new ConfigStorage({assertConfig: assert.secretConfig, ...})`). -/
def secretConfigShape : ConfigShape SecretConfig :=
  { idOf := SecretConfig.id
    seqOf := SecretConfig.sequence
    assertConfig := assertSecretConfig }

/-- A concrete well-formed local identifier (its 16 random bytes all zero),
used as a test vector by the witnesses below. -/
def zeroLocalId : Chars := 'z' :: base58Encode (0 :: 16 :: List.replicate 16 0)

/-- A toy instantiation of the cryptographic primitives satisfying the AES-KW
contract (unwrap inverts wrap, wrapping adds 8 bytes of overhead, byte
outputs), used by the witnesses as a concrete `CryptoSuite`. -/
def toySuite : CryptoSuite :=
  { pbkdf2Sha256 := fun _ salt _ _ => salt ++ salt
    aeskwWrap := fun _ d => d ++ List.replicate 8 0
    aeskwUnwrap := fun _ w =>
      if 8 ≤ w.length ∧ w.drop (w.length - 8) = List.replicate 8 0 then
        .ok (w.take (w.length - 8))
      else .error (("integrity check failed").data)
    hmacSha256 := fun k d => (k ++ d).take 32 }

/-- Concrete generation randomness used by the witnesses. -/
def toyEntropy : GenEntropy :=
  { kdkSecret := List.replicate 32 1
    salt := List.replicate 16 2
    p256SecretKey := List.replicate 32 3
    p256PublicKey := List.replicate 33 4
    hmacUuid := ("u1").data
    kakUuid := ("u2").data }

/-! ## Lemmas: digits and base58 -/

theorem natDigitsAux_eq (b : Nat) (hb : 2 ≤ b) :
    ∀ fuel n, n ≤ fuel → natDigitsAux b fuel n = Nat.digits b n := by
  intro fuel
  induction fuel with
  | zero =>
    intro n hn
    have : n = 0 := Nat.le_zero.mp hn
    subst this
    simp [natDigitsAux]
  | succ fuel ih =>
    intro n hn
    match n with
    | 0 => simp [natDigitsAux]
    | m + 1 =>
      rw [natDigitsAux, Nat.digits_def' (by omega : 1 < b) (Nat.succ_pos m)]
      congr 1
      exact ih _ (by
        have h2 : (m + 1) / b < m + 1 :=
          Nat.div_lt_self (by omega : 0 < m + 1) (by omega : 1 < b)
        omega)

theorem natDigits_eq (b n : Nat) (hb : 2 ≤ b) : natDigits b n = Nat.digits b n :=
  natDigitsAux_eq b hb n n le_rfl

theorem takeWhile_zero_eq_replicate (l : List Nat) :
    l.takeWhile (fun x => x == 0) =
      List.replicate (l.takeWhile (fun x => x == 0)).length 0 := by
  induction l with
  | nil => simp
  | cons a t ih =>
    by_cases ha : a = 0
    · subst ha
      simpa [List.takeWhile_cons, List.replicate_succ] using ih
    · simp [List.takeWhile_cons, ha]

theorem drop_takeWhile_length (p : Nat → Bool) (l : List Nat) :
    l.drop (l.takeWhile p).length = l.dropWhile p := by
  induction l with
  | nil => simp
  | cons a t ih =>
    by_cases ha : p a <;> simp [List.takeWhile_cons, List.dropWhile_cons, ha, ih]

theorem head?_dropWhile_zero (l : List Nat) :
    ∀ a, (l.dropWhile (fun x => x == 0)).head? = some a → a ≠ 0 := by
  induction l with
  | nil => simp
  | cons b t ih =>
    intro a ha
    by_cases hb : b = 0
    · subst hb
      rw [List.dropWhile_cons] at ha
      simp only [beq_self_eq_true, if_true] at ha
      exact ih a ha
    · rw [List.dropWhile_cons] at ha
      simp only [beq_iff_eq, hb, if_false, List.head?_cons, Option.some.injEq] at ha
      subst ha
      exact hb

theorem takeWhile_len_replicate_append (k : Nat) (rest : List Nat)
    (h : ∀ a, rest.head? = some a → a ≠ 0) :
    ((List.replicate k 0 ++ rest).takeWhile (fun x => x == 0)).length = k := by
  induction k with
  | zero =>
    match rest, h with
    | [], _ => simp
    | a :: t, h =>
      have ha : a ≠ 0 := h a rfl
      simp [List.takeWhile_cons, ha]
  | succ k ih =>
    simpa [List.replicate_succ, List.takeWhile_cons] using ih

theorem idxOf_b58Char : ∀ d, d < 58 → idxOf? (b58Char d) b58Alphabet = some d := by
  decide

theorem idxOf?_some {c : Char} {l : Chars} {d : Nat} (h : idxOf? c l = some d) :
    d < l.length ∧ l.getD d '?' = c := by
  induction l generalizing d with
  | nil => simp [idxOf?] at h
  | cons a t ih =>
    by_cases hac : a = c
    · simp [idxOf?, hac] at h
      subst h
      simp [hac]
    · simp only [idxOf?, if_neg hac, Option.map_eq_some'] at h
      obtain ⟨d', hd', rfl⟩ := h
      obtain ⟨hlt, hget⟩ := ih hd'
      exact ⟨by simpa using Nat.succ_lt_succ hlt, by simpa using hget⟩

theorem base58DigitsOf_map (ds : List Nat) (h : ∀ d ∈ ds, d < 58) :
    base58DigitsOf (ds.map b58Char) = some ds := by
  induction ds with
  | nil => rfl
  | cons d t ih =>
    have hd : d < 58 := h d (List.mem_cons_self d t)
    have ht : ∀ d ∈ t, d < 58 := fun x hx => h x (List.mem_cons_of_mem d hx)
    simp only [List.map_cons, base58DigitsOf, idxOf_b58Char d hd, ih ht]

theorem base58DigitsOf_some {s : Chars} {ds : List Nat}
    (h : base58DigitsOf s = some ds) :
    s = ds.map b58Char ∧ ∀ d ∈ ds, d < 58 := by
  induction s generalizing ds with
  | nil =>
    simp only [base58DigitsOf, Option.some.injEq] at h
    subst h
    simp
  | cons c t ih =>
    simp only [base58DigitsOf] at h
    match hidx : idxOf? c b58Alphabet, hrest : base58DigitsOf t with
    | some d, some ds' =>
      rw [hidx, hrest] at h
      simp only [Option.some.injEq] at h
      subst h
      obtain ⟨hteq, htlt⟩ := ih hrest
      obtain ⟨hdlt, hdget⟩ := idxOf?_some hidx
      have hd58 : d < 58 := by simpa [b58Alphabet] using hdlt
      constructor
      · simp only [List.map_cons, ← hteq, b58Char, hdget]
      · intro x hx
        rcases List.mem_cons.mp hx with rfl | hx'
        · exact hd58
        · exact htlt x hx'
    | some _, none => rw [hidx, hrest] at h; exact absurd h (by simp)
    | none, _ => rw [hidx] at h; exact absurd h (by simp)

theorem digits_reverse_head_ne_zero (b n : Nat) :
    ∀ a, ((Nat.digits b n).reverse).head? = some a → a ≠ 0 := by
  intro a ha hcon
  subst hcon
  rw [List.head?_reverse] at ha
  have hne : Nat.digits b n ≠ [] := by
    intro hnil
    rw [hnil] at ha
    exact absurd ha (by simp)
  have hnu : n ≠ 0 := Nat.digits_ne_nil_iff_ne_zero.mp hne
  have hgl := Nat.getLast_digit_ne_zero b hnu
  rw [List.getLast?_eq_getLast _ hne] at ha
  exact hgl (Option.some.inj ha)

theorem base58_decode_encode (bs : Bytes) (h : IsBytes bs) :
    base58Decode (base58Encode bs) = some bs := by
  simp only [base58Encode]
  set zeros := (bs.takeWhile (fun x => x == 0)).length with hz
  set rest := bs.drop zeros with hrestdef
  set n := Nat.ofDigits 256 rest.reverse with hn
  have hrest : rest = bs.dropWhile (fun x => x == 0) := drop_takeWhile_length _ bs
  have hnd : natDigits 58 n = Nat.digits 58 n := natDigits_eq 58 n (by norm_num)
  have hd58 : ∀ d ∈ Nat.digits 58 n, d < 58 :=
    fun d hd => Nat.digits_lt_base (by norm_num) hd
  have hfold : List.replicate zeros '1' ++ ((natDigits 58 n).map b58Char).reverse
      = (List.replicate zeros 0 ++ (Nat.digits 58 n).reverse).map b58Char := by
    rw [hnd, List.map_append, List.map_reverse, List.map_replicate]
    rfl
  rw [hfold]
  have hlt : ∀ d ∈ List.replicate zeros 0 ++ (Nat.digits 58 n).reverse, d < 58 := by
    intro d hd
    rcases List.mem_append.mp hd with hd | hd
    · have : d = 0 := List.eq_of_mem_replicate hd
      omega
    · exact hd58 d (List.mem_reverse.mp hd)
  simp only [base58Decode, base58DigitsOf_map _ hlt]
  have hcount := takeWhile_len_replicate_append zeros ((Nat.digits 58 n).reverse)
    (digits_reverse_head_ne_zero 58 n)
  rw [hcount, List.drop_left' (by simp : (List.replicate zeros (0 : Nat)).length = zeros),
    List.reverse_reverse, Nat.ofDigits_digits 58 n]
  have hd256 : Nat.digits 256 n = rest.reverse := by
    rw [hn]
    apply Nat.digits_ofDigits 256 (by norm_num)
    · intro l hl
      have hmem : l ∈ bs := by
        have := List.mem_reverse.mp hl
        rw [hrestdef] at this
        exact List.mem_of_mem_drop this
      exact h l hmem
    · intro hne
      set x := rest.reverse.getLast hne with hx
      have hsome := List.getLast?_eq_getLast rest.reverse hne
      rw [List.getLast?_reverse] at hsome
      have hsome2 : (bs.dropWhile (fun y => y == 0)).head? = some x := by
        rw [← hrest, hx]
        exact hsome
      exact head?_dropWhile_zero bs x hsome2
  rw [natDigits_eq 256 _ (by norm_num), hd256, List.reverse_reverse]
  have hsplit : List.replicate zeros 0 ++ rest = bs := by
    conv_rhs => rw [← List.takeWhile_append_dropWhile (p := fun x => x == 0) (l := bs)]
    rw [← hrest]
    congr 1
    rw [hz]
    exact (takeWhile_zero_eq_replicate bs).symm
  rw [hsplit]

theorem base58_encode_decode {s : Chars} {bs : Bytes}
    (h : base58Decode s = some bs) : base58Encode bs = s ∧ IsBytes bs := by
  match hds : base58DigitsOf s with
  | none => rw [base58Decode, hds] at h; exact absurd h (by simp)
  | some ds =>
    rw [base58Decode, hds] at h
    simp only [Option.some.injEq] at h
    obtain ⟨hseq, hlt⟩ := base58DigitsOf_some hds
    set zeros := (ds.takeWhile (fun x => x == 0)).length with hz
    have hdropdef : ds.drop zeros = ds.dropWhile (fun x => x == 0) :=
      drop_takeWhile_length _ ds
    set m := Nat.ofDigits 58 (ds.drop zeros).reverse with hm
    have hd58 : Nat.digits 58 m = (ds.drop zeros).reverse := by
      rw [hm]
      apply Nat.digits_ofDigits 58 (by norm_num)
      · intro l hl
        exact hlt l (List.mem_of_mem_drop (List.mem_reverse.mp hl))
      · intro hne
        set x := (ds.drop zeros).reverse.getLast hne with hx
        have hsome := List.getLast?_eq_getLast (ds.drop zeros).reverse hne
        rw [List.getLast?_reverse] at hsome
        have hsome2 : (ds.dropWhile (fun y => y == 0)).head? = some x := by
          rw [← hdropdef, hx]
          exact hsome
        exact head?_dropWhile_zero ds x hsome2
    have hbs : bs = List.replicate zeros 0 ++ (Nat.digits 256 m).reverse := by
      rw [← h, natDigits_eq 256 _ (by norm_num)]
    constructor
    · rw [hbs]
      simp only [base58Encode]
      have hcount := takeWhile_len_replicate_append zeros ((Nat.digits 256 m).reverse)
        (digits_reverse_head_ne_zero 256 m)
      rw [hcount,
        List.drop_left' (by simp : (List.replicate zeros (0 : Nat)).length = zeros),
        List.reverse_reverse, Nat.ofDigits_digits 256 m,
        natDigits_eq 58 _ (by norm_num), hd58]
      rw [List.map_reverse, List.reverse_reverse]
      have hone : List.replicate zeros '1' = (List.replicate zeros (0 : Nat)).map b58Char := by
        rw [List.map_replicate]
        rfl
      rw [hone, ← List.map_append]
      have hsplit : List.replicate zeros 0 ++ ds.drop zeros = ds := by
        conv_rhs =>
          rw [← List.takeWhile_append_dropWhile (p := fun x => x == 0) (l := ds)]
        rw [hdropdef]
        congr 1
        rw [hz]
        exact (takeWhile_zero_eq_replicate ds).symm
      rw [hsplit, ← hseq]
    · intro b hb
      rw [hbs] at hb
      rcases List.mem_append.mp hb with hb | hb
      · have : b = 0 := List.eq_of_mem_replicate hb
        omega
      · exact Nat.digits_lt_base (by norm_num) (List.mem_reverse.mp hb)

/-! ## Lemmas: multihash and local identifiers -/

theorem multihash_roundtrip (codec : Nat) (data : Bytes) (hc : codec < 256)
    (hd : IsBytes data) (hlen : data.length < 128) :
    multihashEncode codec data 'z' =
      .ok ('z' :: base58Encode (codec :: data.length :: data)) ∧
    multihashDecode codec data.length
      ('z' :: base58Encode (codec :: data.length :: data)) = .ok data := by
  have hbuf : IsBytes (codec :: data.length :: data) := by
    intro b hb
    rcases List.mem_cons.mp hb with rfl | hb
    · exact hc
    · rcases List.mem_cons.mp hb with rfl | hb
      · omega
      · exact hd b hb
  have hdec := base58_decode_encode _ hbuf
  constructor
  · simp [multihashEncode, Nat.not_le.mpr hlen]
  · have h1 : ¬ (128 ≤ data.length) := by omega
    simp [multihashDecode, multibaseDecode, hdec, h1]

theorem localIdCheck_true_iff (x : Chars) :
    localIdCheck x = true ↔
      ∃ b : Bytes, b.length = 16 ∧ IsBytes b ∧
        x = 'z' :: base58Encode (0 :: 16 :: b) := by
  constructor
  · intro h
    match hdec : base58Decode (x.drop 1) with
    | none => rw [localIdCheck, hdec] at h; simp at h
    | some buf =>
      rw [localIdCheck, hdec] at h
      simp only [Bool.and_eq_true, beq_iff_eq] at h
      obtain ⟨⟨⟨hhead, hblen⟩, h0⟩, h1⟩ := h
      obtain ⟨henc, hbytes⟩ := base58_encode_decode hdec
      match x, hhead with
      | c :: t, hhead =>
        simp only [List.head?_cons, Option.some.injEq] at hhead
        subst hhead
        have hdrop : ('z' :: t).drop 1 = t := rfl
        rw [hdrop] at henc hdec
        match buf, hblen, h0, h1 with
        | a :: e :: b, hblen, h0, h1 =>
          simp only [List.getD_cons_zero] at h0
          simp only [List.getD_cons_succ, List.getD_cons_zero] at h1
          subst h0
          subst h1
          refine ⟨b, by simpa using hblen, ?_, ?_⟩
          · intro y hy
            exact hbytes y (List.mem_cons_of_mem _ (List.mem_cons_of_mem _ hy))
          · rw [← henc]
  · rintro ⟨b, hblen, hbbytes, rfl⟩
    have hbuf : IsBytes (0 :: 16 :: b) := by
      intro y hy
      rcases List.mem_cons.mp hy with rfl | hy
      · omega
      · rcases List.mem_cons.mp hy with rfl | hy
        · omega
        · exact hbbytes y hy
    have hdec : base58Decode (('z' :: base58Encode (0 :: 16 :: b)).drop 1) =
        some (0 :: 16 :: b) := by
      rw [List.drop_succ_cons, List.drop_zero]
      exact base58_decode_encode _ hbuf
    rw [localIdCheck, hdec]
    simp [hblen]

/-! ## Claim C10 -/

/-- C10: for every `Uint8Array` `data` with fewer than 128 bytes,
`multihashEncode({codec: 0x00, data, multibase: 'z'})` succeeds and
`multihashDecode({expectedCodec: 0x00, expectedSize: data.length, encoded})`
on its output returns `data` — encode followed by decode with the matching
expected size is the identity on byte arrays shorter than 128 bytes. -/
theorem c10_multihash_roundtrip (data : Bytes) (hd : IsBytes data)
    (hlen : data.length < 128) :
    multihashEncode 0 data 'z' =
      .ok ('z' :: base58Encode (0 :: data.length :: data)) ∧
    multihashDecode 0 data.length
      ('z' :: base58Encode (0 :: data.length :: data)) = .ok data :=
  multihash_roundtrip 0 data (by norm_num) hd hlen

/-- Witness for C10 at the concrete byte array `[1, 2, 3]`. -/
theorem c10_multihash_roundtrip_witness :
    multihashEncode 0 [1, 2, 3] 'z' =
      .ok ('z' :: base58Encode (0 :: 3 :: [1, 2, 3])) ∧
    multihashDecode 0 3 ('z' :: base58Encode (0 :: 3 :: [1, 2, 3])) =
      .ok [1, 2, 3] :=
  c10_multihash_roundtrip [1, 2, 3] (by decide) (by decide)

/-! ## Claim C5 -/

/-- C5 counterexample: the claim says every public operation taking a vault,
document, or secret identifier rejects any identifier that is not
`'z' + base58(0x00 0x10 ‖ 16 bytes)` with a `ConstraintError`.  But secret
configuration ids are only checked to be strings (`assert.secretConfig`), so
`ConfigStorage.insert` — the operation `secrets.insert` delegates to —
accepts the malformed identifier `"bogus"` and inserts the record instead of
rejecting it. -/
theorem c5_counterexample :
    (∀ b : Bytes, ("bogus").data ≠ 'z' :: base58Encode (0 :: 16 :: b)) ∧
    configInsert secretConfigShape []
      ⟨("bogus").data, ("h").data, ("k").data,
        ⟨("1").data, ("s").data, ("w").data, none⟩, 0⟩ =
      .ok
        ⟨("bogus").data, 1,
          ⟨("bogus").data, ("h").data, ("k").data,
            ⟨("1").data, ("s").data, ("w").data, none⟩, 0⟩⟩
        [⟨("bogus").data, 1,
          ⟨("bogus").data, ("h").data, ("k").data,
            ⟨("1").data, ("s").data, ("w").data, none⟩, 0⟩⟩] := by
  constructor
  · intro b hcon
    have h1 : (("bogus").data).head? = some 'z' := by rw [hcon]; rfl
    revert h1
    decide
  · decide

/-- C5 (amended): identifiers validated with `assert.localId` — document
identifiers (in `docs.insert`/`upsert`/`get`) and chunk document identifiers
— are accepted exactly when they are `'z'` followed by the base58 encoding
of `0x00 0x10` concatenated with 16 bytes, and otherwise rejected with the
`ConstraintError` whose message is `Identifier "<id>" must be base58-encoded
multibase, multihash array of 16 random bytes.`; in particular `docs.insert`
so rejects any document whose `id` has that defect.  Vault and secret
configuration identifiers, in contrast, are not format-checked:
`assert.edvConfig` and `assert.secretConfig` accept every id string
whatsoever (their only value-level checks are the sequence bound and, for
secrets, the version). -/
theorem c5_amended_localid_format_gate (x : Chars) :
    ((∃ b : Bytes, b.length = 16 ∧ IsBytes b ∧
        x = 'z' :: base58Encode (0 :: 16 :: b)) →
      assertLocalId x = .ok ()) ∧
    ((¬ ∃ b : Bytes, b.length = 16 ∧ IsBytes b ∧
        x = 'z' :: base58Encode (0 :: 16 :: b)) →
      assertLocalId x =
        .error ⟨("ConstraintError").data, localIdErrorMessage x⟩ ∧
      ∀ (st : DbState DocBody) (edvId : Chars) (doc : EdvDoc), doc.id = x →
        docsInsert st edvId doc =
          .assertError ⟨("ConstraintError").data, localIdErrorMessage x⟩ st) ∧
    (∀ cfg : EdvConfig, sequenceOk cfg.sequence = true →
      assertEdvConfig cfg = none) ∧
    (∀ cfg : SecretConfig, cfg.secret.version = ("1").data →
      sequenceOk cfg.sequence = true → assertSecretConfig cfg = none) := by
  refine ⟨?_, ?_, ?_, ?_⟩
  · intro hex
    have hc : localIdCheck x = true := (localIdCheck_true_iff x).mpr hex
    rw [assertLocalId, hc]
    simp
  · intro h
    have hfalse : localIdCheck x = false := by
      cases hc : localIdCheck x
      · rfl
      · exact absurd ((localIdCheck_true_iff x).mp hc) h
    have herr : assertLocalId x =
        .error ⟨("ConstraintError").data, localIdErrorMessage x⟩ := by
      rw [assertLocalId, hfalse]
      simp
    refine ⟨herr, ?_⟩
    intro st edvId doc hid
    simp only [docsInsert, assertDoc, hid, herr]
  · intro cfg hseq
    simp [assertEdvConfig, hseq]
  · intro cfg hv hseq
    simp [assertSecretConfig, hv, hseq]

/-- Witness for the amended C5: the well-formed identifier `zeroLocalId` is
accepted; the identifier `"not valid format"` (the one used by the
repository's own tests) is rejected, also through `docs.insert`; and the
vault and secret configuration validators accept the malformed id
`"bogus"`. -/
theorem c5_amended_localid_format_gate_witness :
    assertLocalId zeroLocalId = .ok () ∧
    assertLocalId (("not valid format").data) =
      .error ⟨("ConstraintError").data,
        localIdErrorMessage (("not valid format").data)⟩ ∧
    docsInsert [] (("e").data)
      ⟨("not valid format").data, 0, ("j").data, []⟩ =
      .assertError
        ⟨("ConstraintError").data,
          localIdErrorMessage (("not valid format").data)⟩ [] ∧
    assertEdvConfig
      ⟨("bogus").data, ("c").data, 0, ⟨("h").data, ("t").data⟩,
        ⟨("k").data, ("t").data⟩⟩ = none ∧
    assertSecretConfig
      ⟨("bogus").data, ("h").data, ("k").data,
        ⟨("1").data, ("s").data, ("w").data, none⟩, 0⟩ = none := by
  have hneg : ¬ ∃ b : Bytes, b.length = 16 ∧ IsBytes b ∧
      ("not valid format").data = 'z' :: base58Encode (0 :: 16 :: b) := by
    intro hcon
    have hc := (localIdCheck_true_iff (("not valid format").data)).mpr hcon
    revert hc
    decide
  have hacc := (c5_amended_localid_format_gate zeroLocalId).1
    ⟨List.replicate 16 0, by decide, by decide, rfl⟩
  have hrej := (c5_amended_localid_format_gate (("not valid format").data)).2.1 hneg
  have hedv := (c5_amended_localid_format_gate (("not valid format").data)).2.2.1
    ⟨("bogus").data, ("c").data, 0, ⟨("h").data, ("t").data⟩,
      ⟨("k").data, ("t").data⟩⟩ (by decide)
  have hsec := (c5_amended_localid_format_gate (("not valid format").data)).2.2.2
    ⟨("bogus").data, ("h").data, ("k").data,
      ⟨("1").data, ("s").data, ("w").data, none⟩, 0⟩ rfl (by decide)
  exact ⟨hacc, hrej.1,
    hrej.2 [] (("e").data) ⟨("not valid format").data, 0, ("j").data, []⟩ rfl,
    hedv, hsec⟩

/-! ## Lemmas: the check-then-write primitives -/

theorem insertOne_constraintError_state {α : Type} {st : DbState α}
    {docId : Option Chars} {body : α} {ucs : List (Sel α)} {e : DbRecord α}
    {st' : DbState α}
    (h : insertOne st docId body ucs = .constraintError e st') : st' = st := by
  unfold insertOne at h
  split at h
  · cases h
    rfl
  · split at h
    · split at h
      · cases h
      · cases h
    · cases h

theorem updateOne_constraintError_state {α : Type} {st : DbState α}
    {docId : Option Chars} {body : α} {sel : Sel α} {upsert : Bool}
    {ucs : List (Sel α)} {m : Chars} {e : Option (DbRecord α)} {st' : DbState α}
    (h : updateOne st docId body sel upsert ucs = .constraintError m e st') :
    st' = st := by
  unfold updateOne at h
  split at h
  · split at h
    · split at h
      · cases h
      · rename_i heq
        cases h
        exact insertOne_constraintError_state heq
      · cases h
    · cases h
  · split at h
    · cases h
      rfl
    · split at h
      · cases h
      · cases h

/-! ## Claim C9 -/

/-- C9: whenever `insertOne` or `updateOne` rejects with a `ConstraintError`,
the call has performed no successful `put` or `post`: the collection state
carried on the error equals the state at the start of the call — the
uniqueness check throws strictly before any write is attempted. -/
theorem c9_constraint_error_leaves_state {α : Type} (st : DbState α)
    (docId : Option Chars) (body : α) (sel : Sel α) (upsert : Bool)
    (ucs : List (Sel α)) :
    (∀ e st', insertOne st docId body ucs = .constraintError e st' → st' = st) ∧
    (∀ m e st',
      updateOne st docId body sel upsert ucs = .constraintError m e st' →
        st' = st) :=
  ⟨fun _ _ h => insertOne_constraintError_state h,
   fun _ _ _ h => updateOne_constraintError_state h⟩

/-- Witness for C9: a concrete duplicate-`_id` insert and a concrete
failing-constraint update, each leaving the one-record store unchanged. -/
theorem c9_constraint_error_leaves_state_witness :
    ([⟨("a").data, 1, (0 : Nat)⟩] : DbState Nat) = [⟨("a").data, 1, (0 : Nat)⟩] ∧
    ([⟨("a").data, 1, (0 : Nat)⟩] : DbState Nat) = [⟨("a").data, 1, (0 : Nat)⟩] :=
  ⟨(c9_constraint_error_leaves_state [⟨("a").data, 1, (0 : Nat)⟩]
      (some (("a").data)) 5 (selById (("a").data)) false []).1
      ⟨("a").data, 1, 0⟩ [⟨("a").data, 1, 0⟩] (by decide),
   (c9_constraint_error_leaves_state [⟨("a").data, 1, (0 : Nat)⟩]
      none 5 (selById (("a").data)) false [selById (("b").data)]).2
      updateConstraintMessage none [⟨("a").data, 1, 0⟩] (by decide)⟩

/-! ## Claim C4 -/

/-- C4 counterexample: the claim says a uniqueness constraint whose query
returns no hit at all does not cause the update to fail.  Concretely: the
store holds one record with `_id = "a"`, the query selector matches it, the
sole supplied uniqueness constraint queries `_id = "b"` and so has no hit —
no constraint has a hit with a different `_id` — yet `updateOne` throws
`ConstraintError` (with `error.existing` undefined), because
`existing._id !== record?._id` also fires when `record` is `undefined`. -/
theorem c4_counterexample :
    updateOne [⟨("a").data, 1, (0 : Nat)⟩] none 7
        (selById (("a").data)) false [selById (("b").data)] =
      .constraintError updateConstraintMessage none [⟨("a").data, 1, 0⟩] ∧
    findOne [⟨("a").data, 1, (0 : Nat)⟩] (selById (("a").data)) =
      some ⟨("a").data, 1, 0⟩ ∧
    findOne [⟨("a").data, 1, (0 : Nat)⟩] (selById (("b").data)) = none := by
  decide

/-- C4 (amended): for every call to `updateOne` whose query selector matches
an existing record, the call fails with `ConstraintError` if and only if some
supplied or implicit uniqueness constraint's query result is not a hit
carrying the matched record's `_id` — that is, it has a hit whose `_id`
differs, or it has no hit at all (a missing hit also fails the update). -/
theorem c4_amended_update_constraint {α : Type} (st : DbState α)
    (docId : Option Chars) (body : α) (sel : Sel α) (upsert : Bool)
    (ucs : List (Sel α)) (existing : DbRecord α)
    (hfind : findOne st sel = some existing) :
    (updateOne st docId body sel upsert ucs).isConstraintError = true ↔
      (withIdConstraint docId ucs).any
        (fun c => (findOne st c).map DbRecord._id != some existing._id) = true := by
  unfold updateOne
  rw [hfind]
  match hoff : ((withIdConstraint docId ucs).map (findOne st)).find?
      (fun h => h.map DbRecord._id != some existing._id) with
  | some off =>
    have hpred := List.find?_some hoff
    have hmem := List.mem_of_find?_eq_some hoff
    obtain ⟨c, hc, hco⟩ := List.mem_map.mp hmem
    simp only [hoff]
    constructor
    · intro _
      rw [List.any_eq_true]
      exact ⟨c, hc, by rw [hco]; exact hpred⟩
    · intro _
      rfl
  | none =>
    simp only [hoff]
    constructor
    · intro hl
      exfalso
      revert hl
      match putReplace st (docId.getD existing._id) existing._rev body with
      | some (r, st') => simp [UpdateOutcome.isConstraintError]
      | none => simp [UpdateOutcome.isConstraintError]
    · intro hr
      exfalso
      rw [List.any_eq_true] at hr
      obtain ⟨c, hc, hp⟩ := hr
      have hnone := List.find?_eq_none.mp hoff
      exact absurd hp (by simpa using hnone _ (List.mem_map_of_mem _ hc))

/-- Witness for the amended C4: a one-record store where the only effective
constraint is the implicit `_id` one and it returns the matched record, so
neither side of the equivalence holds and the update succeeds. -/
theorem c4_amended_update_constraint_witness :
    ((updateOne [⟨("a").data, 1, (0 : Nat)⟩] (some (("a").data)) 7
        (selById (("a").data)) false []).isConstraintError = true ↔
      (withIdConstraint (some (("a").data)) ([] : List (Sel Nat))).any
        (fun c =>
          (findOne [⟨("a").data, 1, (0 : Nat)⟩] c).map DbRecord._id !=
            some (DbRecord._id ⟨("a").data, 1, (0 : Nat)⟩)) = true) :=
  c4_amended_update_constraint [⟨("a").data, 1, (0 : Nat)⟩]
    (some (("a").data)) 7 (selById (("a").data)) false [] ⟨("a").data, 1, 0⟩
    (by decide)

/-! ## Lemmas: lookups in a well-formed collection -/

theorem findOne_eq_none_iff {α : Type} (st : DbState α) (sel : Sel α) :
    findOne st sel = none ↔ ∀ r ∈ st, sel r = false := by
  rw [findOne, List.find?_eq_none]
  constructor
  · intro h r hr
    have := h r hr
    simpa using this
  · intro h r hr
    simp [h r hr]

theorem findOne_selById_of_mem {α : Type} {st : DbState α} (hwf : DbWf st)
    {r : DbRecord α} (hr : r ∈ st) : findOne st (selById r._id) = some r := by
  induction st with
  | nil => simp at hr
  | cons a t ih =>
    have hwf' : a._id ∉ t.map DbRecord._id ∧ DbWf t := by
      rw [DbWf, List.map_cons, List.nodup_cons] at hwf
      exact hwf
    rcases List.mem_cons.mp hr with rfl | hrt
    · simp [findOne, List.find?_cons, selById]
    · have hne : (a._id == r._id) = false := by
        rw [beq_eq_false_iff_ne]
        intro hcon
        exact hwf'.1 (hcon ▸ List.mem_map_of_mem DbRecord._id hrt)
      rw [findOne, List.find?_cons]
      simp only [selById, hne, cond_false]
      exact ih hwf'.2 hrt

theorem mem_id_unique {α : Type} {st : DbState α} (hwf : DbWf st)
    {r r' : DbRecord α} (hr : r ∈ st) (hr' : r' ∈ st) (h : r._id = r'._id) :
    r = r' := by
  have h1 := findOne_selById_of_mem hwf hr
  have h2 := findOne_selById_of_mem hwf hr'
  rw [h] at h1
  rw [h1] at h2
  exact Option.some.inj h2

theorem findOne_unique_sel {α : Type} {st : DbState α} (hwf : DbWf st)
    {sel : Sel α} {i : Chars} (himp : ∀ x, sel x = true → x._id = i)
    {r : DbRecord α} (hr : r ∈ st) (hselr : sel r = true) :
    findOne st sel = some r := by
  induction st with
  | nil => simp at hr
  | cons a t ih =>
    have hwf' : a._id ∉ t.map DbRecord._id ∧ DbWf t := by
      rw [DbWf, List.map_cons, List.nodup_cons] at hwf
      exact hwf
    rcases List.mem_cons.mp hr with rfl | hrt
    · simp [findOne, List.find?_cons, hselr]
    · have hsa : sel a = false := by
        cases hcase : sel a
        · rfl
        · exfalso
          have hidr : r._id = i := himp r hselr
          have hida : a._id = i := himp a hcase
          exact hwf'.1 ((hida.trans hidr.symm) ▸
            List.mem_map_of_mem DbRecord._id hrt)
      rw [findOne, List.find?_cons]
      simp only [hsa, cond_false]
      exact ih hwf'.2 hrt

theorem updateOne_found {α : Type} {st : DbState α} {docId : Option Chars}
    {body : α} {sel : Sel α} {upsert : Bool} {ucs : List (Sel α)}
    {x : DbRecord α} (hx : findOne st sel = some x) :
    updateOne st docId body sel upsert ucs =
      (match ((withIdConstraint docId ucs).map (findOne st)).find?
          (fun h => h.map DbRecord._id != some x._id) with
        | some offender => .constraintError updateConstraintMessage offender st
        | none =>
          match putReplace st (docId.getD x._id) x._rev body with
          | some (r, st') => .ok r st'
          | none => .diverge) := by
  unfold updateOne
  rw [hx]

theorem updateOne_found_ne_noMatch {α : Type} {st : DbState α}
    {docId : Option Chars} {body : α} {sel : Sel α} {upsert : Bool}
    {ucs : List (Sel α)} {x : DbRecord α} {st' : DbState α}
    (hx : findOne st sel = some x) :
    updateOne st docId body sel upsert ucs ≠ .noMatch st' := by
  intro h
  rw [updateOne_found hx] at h
  split at h
  · cases h
  · split at h
    · cases h
    · cases h

theorem updateOne_noMatch_of_none {α : Type} {st : DbState α}
    {docId : Option Chars} {body : α} {sel : Sel α} {ucs : List (Sel α)}
    (hnone : findOne st sel = none) :
    updateOne st docId body sel false ucs = .noMatch st := by
  unfold updateOne
  rw [hnone]
  rfl

theorem updateOne_found_own_id {α : Type} {st : DbState α} (hwf : DbWf st)
    {sel : Sel α} {r : DbRecord α} (hfound : findOne st sel = some r)
    {i : Chars} (hid : r._id = i) (body : α) (upsert : Bool) :
    updateOne st (some i) body sel upsert [] =
      .ok ⟨i, r._rev + 1, body⟩
        (st.map fun r0 =>
          if r0._id == i then ⟨i, r._rev + 1, body⟩ else r0) := by
  have hr : r ∈ st := List.mem_of_find?_eq_some hfound
  have hf2 : findOne st (selById i) = some r := hid ▸ findOne_selById_of_mem hwf hr
  rw [updateOne_found hfound]
  have hucs : withIdConstraint (some i) ([] : List (Sel α)) = [selById i] := rfl
  rw [hucs, List.map_cons, List.map_nil, hf2]
  rw [List.find?_cons_of_neg _ (by simp [hid]), List.find?_nil]
  simp only [Option.getD_some, putReplace, hf2, if_pos rfl, hid]
  rw [if_pos trivial]

/-! ## Claim C8 -/

/-- C8: for every valid config, `ConfigStorage.update` throws
`InvalidStateError` with message `Could not update configuration. Sequence
does not match or configuration does not exist.` exactly when no stored
record has `_id` equal to `config.id` and stored sequence equal to
`config.sequence - 1`; otherwise it replaces that record with the given
config (bumping the revision) and returns the updated record. -/
theorem c8_config_update_sequence_gate {γ : Type} (C : ConfigShape γ)
    (st : DbState γ) (config : γ) (hwf : DbWf st)
    (hassert : C.assertConfig config = none) :
    (configUpdate C st config = .invalidState configSequenceMessage st ↔
      ∀ r ∈ st, ¬ (r._id = C.idOf config ∧
        (C.seqOf r.body : Int) = (C.seqOf config : Int) - 1)) ∧
    (∀ r ∈ st, r._id = C.idOf config →
      (C.seqOf r.body : Int) = (C.seqOf config : Int) - 1 →
      configUpdate C st config =
        .ok ⟨C.idOf config, r._rev + 1, config⟩
          (st.map fun r0 =>
            if r0._id == C.idOf config then ⟨C.idOf config, r._rev + 1, config⟩
            else r0)) := by
  set i := C.idOf config with hi
  set sel : Sel γ :=
    (fun r => r._id == i &&
      ((C.seqOf r.body : Int) == (C.seqOf config : Int) - 1)) with hseldef
  have hred : configUpdate C st config =
      (match updateOne st (some i) config sel false [] with
        | .ok r st' => .ok r st'
        | .noMatch st' => .invalidState configSequenceMessage st'
        | .constraintError m ex st' => .constraintError m ex st'
        | .diverge => .diverge) := by
    unfold configUpdate
    rw [hassert]
  have hselr : ∀ r : DbRecord γ, sel r = true ↔
      (r._id = i ∧ (C.seqOf r.body : Int) = (C.seqOf config : Int) - 1) := by
    intro r
    rw [hseldef]
    simp
  constructor
  · constructor
    · intro h r hr hcon
      rw [hred] at h
      have hselr2 : sel r = true := (hselr r).mpr ⟨hcon.1, hcon.2⟩
      have hsome : ∃ x, findOne st sel = some x := by
        cases hfo : findOne st sel with
        | none =>
          have := (findOne_eq_none_iff st sel).mp hfo r hr
          rw [hselr2] at this
          cases this
        | some x => exact ⟨x, rfl⟩
      obtain ⟨x, hx⟩ := hsome
      split at h
      · cases h
      · rename_i heq
        exact updateOne_found_ne_noMatch hx heq
      · cases h
      · cases h
    · intro h
      have hnone : findOne st sel = none := by
        rw [findOne_eq_none_iff]
        intro r hr
        cases hcase : sel r
        · rfl
        · exact absurd ((hselr r).mp hcase) (by
            intro hcon
            exact h r hr ⟨hcon.1, hcon.2⟩)
      rw [hred, updateOne_noMatch_of_none hnone]
  · intro r hr hid hseq
    have hselr2 : sel r = true := (hselr r).mpr ⟨hid, hseq⟩
    have hfound : findOne st sel = some r :=
      findOne_unique_sel hwf (fun x hx => ((hselr x).mp hx).1) hr hselr2
    rw [hred, updateOne_found_own_id hwf hfound hid config false]

/-- Witness for C8 over a one-record collection holding sequence 0, updated
with a config at sequence 1: the failure condition is false on both sides of
the equivalence and the success branch replaces the record. -/
theorem c8_config_update_sequence_gate_witness :
    (configUpdate ⟨fun _ => ("i").data, fun n => n, fun _ => none⟩
        [⟨("i").data, 3, (0 : Nat)⟩] 1 =
          .invalidState configSequenceMessage [⟨("i").data, 3, (0 : Nat)⟩] ↔
      ∀ r ∈ ([⟨("i").data, 3, (0 : Nat)⟩] : DbState Nat),
        ¬ (r._id = ("i").data ∧ (r.body : Int) = (1 : Int) - 1)) ∧
    configUpdate ⟨fun _ => ("i").data, fun n => n, fun _ => none⟩
        [⟨("i").data, 3, (0 : Nat)⟩] 1 =
      .ok ⟨("i").data, 4, 1⟩ [⟨("i").data, 4, 1⟩] := by
  have h := c8_config_update_sequence_gate
    (⟨fun _ => ("i").data, fun n => n, fun _ => none⟩ : ConfigShape Nat)
    [⟨("i").data, 3, (0 : Nat)⟩] 1 (by decide) rfl
  refine ⟨h.1, ?_⟩
  have h2 := h.2 ⟨("i").data, 3, 0⟩ (by decide) rfl (by decide)
  simpa using h2

/-! ## Claim C7 -/

theorem insertOne_fresh {α : Type} {st : DbState α} {i : Chars}
    (hnone : findOne st (selById i) = none) (body : α) :
    insertOne st (some i) body [] = .ok ⟨i, 1, body⟩ (st ++ [⟨i, 1, body⟩]) := by
  unfold insertOne
  have hucs : withIdConstraint (some i) ([] : List (Sel α)) = [selById i] := rfl
  rw [hucs, List.map_cons, List.map_nil, hnone]
  simp only [List.head?_cons]
  simp only [putNew, hnone]

/-- C7: for every `edvId`, every `docId` whose document exists, and every
valid chunk, `chunks.upsert` throws `InvalidStateError` with message `Could
not update document chunk. Sequence does not match the associated document.`
carrying `expected` = the stored document's sequence and `actual` =
`chunk.sequence`, exactly when `chunk.sequence` differs from the stored
document's sequence (leaving the store unchanged); when they are equal the
chunk record is written — inserted at revision 1 when absent, otherwise
replacing the stored chunk at the next revision. -/
theorem c7_chunk_sequence_gate (docsSt : DbState DocBody)
    (st : DbState ChunkBody) (edvId docId : Chars) (chunk : EdvChunk)
    (hwf : DbWf st) (hid : assertLocalId docId = .ok ())
    (hchunk : assertChunk chunk = .ok ()) (docRec : DbRecord DocBody)
    (hdoc : docsGet docsSt edvId docId = .ok docRec) :
    (chunksUpsert docsSt st edvId docId chunk =
        .invalidState chunkSequenceMessage docRec.body.doc.sequence
          chunk.sequence st ↔
      chunk.sequence ≠ docRec.body.doc.sequence) ∧
    (chunk.sequence = docRec.body.doc.sequence →
      findOne st (selById (chunkRecordId (parseLocalId edvId) docId chunk.index)) =
          none →
      chunksUpsert docsSt st edvId docId chunk =
        .ok ⟨chunkRecordId (parseLocalId edvId) docId chunk.index, 1,
            ⟨parseLocalId edvId, docId, chunk⟩⟩
          (st ++ [⟨chunkRecordId (parseLocalId edvId) docId chunk.index, 1,
            ⟨parseLocalId edvId, docId, chunk⟩⟩])) ∧
    (∀ c, chunk.sequence = docRec.body.doc.sequence →
      findOne st (selById (chunkRecordId (parseLocalId edvId) docId chunk.index)) =
          some c →
      chunksUpsert docsSt st edvId docId chunk =
        .ok ⟨chunkRecordId (parseLocalId edvId) docId chunk.index, c._rev + 1,
            ⟨parseLocalId edvId, docId, chunk⟩⟩
          (st.map fun r0 =>
            if r0._id == chunkRecordId (parseLocalId edvId) docId chunk.index then
              ⟨chunkRecordId (parseLocalId edvId) docId chunk.index, c._rev + 1,
                ⟨parseLocalId edvId, docId, chunk⟩⟩
            else r0)) := by
  set recId := chunkRecordId (parseLocalId edvId) docId chunk.index with hrec
  have hred : chunksUpsert docsSt st edvId docId chunk =
      (if chunk.sequence ≠ docRec.body.doc.sequence then
        .invalidState chunkSequenceMessage docRec.body.doc.sequence
          chunk.sequence st
      else
        match updateOne st (some recId)
            (⟨parseLocalId edvId, docId, chunk⟩ : ChunkBody)
            (selById recId) true [] with
          | .ok r st' => .ok r st'
          | .noMatch st' => .typeError st'
          | .constraintError msg (some ex) st' =>
            if ex._id = recId then .okExisting ex st'
            else .constraintError msg (some ex) st'
          | .constraintError _ none st' => .typeError st'
          | .diverge => .diverge) := by
    unfold chunksUpsert
    rw [hid, hchunk, hdoc]
  constructor
  · by_cases hne : chunk.sequence = docRec.body.doc.sequence
    · rw [hred, if_neg (by simpa using hne)]
      constructor
      · intro h
        exfalso
        split at h
        · cases h
        · cases h
        · split at h
          · cases h
          · cases h
        · cases h
        · cases h
      · intro h
        exact absurd hne h
    · rw [hred, if_pos (by simpa using hne)]
      exact ⟨fun _ => hne, fun _ => rfl⟩
  constructor
  · intro hseq hnone
    rw [hred, if_neg (by simpa using hseq)]
    have hins := insertOne_fresh hnone (⟨parseLocalId edvId, docId, chunk⟩ : ChunkBody)
    have hupd : updateOne st (some recId)
        (⟨parseLocalId edvId, docId, chunk⟩ : ChunkBody) (selById recId) true [] =
        .ok ⟨recId, 1, ⟨parseLocalId edvId, docId, chunk⟩⟩
          (st ++ [⟨recId, 1, ⟨parseLocalId edvId, docId, chunk⟩⟩]) := by
      unfold updateOne
      rw [hnone]
      simp [hins]
    rw [hupd]
  · intro c hseq hsome
    rw [hred, if_neg (by simpa using hseq)]
    have hcid : c._id = recId := by
      have := List.find?_some hsome
      simpa [selById] using this
    rw [updateOne_found_own_id hwf hsome hcid _ true]

/-- Witness for C7: an empty chunk store, a stored document at sequence 0 and
a chunk at sequence 0 with index 0 — the sequence-mismatch condition is false
on both sides and the chunk record is inserted at revision 1. -/
theorem c7_chunk_sequence_gate_witness :
    (chunksUpsert
        [⟨docRecordId (("e").data) zeroLocalId, 1,
          ⟨("e").data, ⟨zeroLocalId, 0, ("j").data, []⟩, [], [], [], false⟩⟩]
        [] (("e").data) zeroLocalId ⟨0, 0, 0, ("c").data⟩ =
        .invalidState chunkSequenceMessage 0 0 [] ↔ (0 : Nat) ≠ 0) ∧
    chunksUpsert
        [⟨docRecordId (("e").data) zeroLocalId, 1,
          ⟨("e").data, ⟨zeroLocalId, 0, ("j").data, []⟩, [], [], [], false⟩⟩]
        [] (("e").data) zeroLocalId ⟨0, 0, 0, ("c").data⟩ =
      .ok ⟨chunkRecordId (("e").data) zeroLocalId 0, 1,
          ⟨("e").data, zeroLocalId, ⟨0, 0, 0, ("c").data⟩⟩⟩
        [⟨chunkRecordId (("e").data) zeroLocalId 0, 1,
          ⟨("e").data, zeroLocalId, ⟨0, 0, 0, ("c").data⟩⟩⟩] := by
  have h := c7_chunk_sequence_gate
    [⟨docRecordId (("e").data) zeroLocalId, 1,
      ⟨("e").data, ⟨zeroLocalId, 0, ("j").data, []⟩, [], [], [], false⟩⟩]
    [] (("e").data) zeroLocalId ⟨0, 0, 0, ("c").data⟩
    (by decide) (by decide) (by decide)
    ⟨docRecordId (("e").data) zeroLocalId, 1,
      ⟨("e").data, ⟨zeroLocalId, 0, ("j").data, []⟩, [], [], [], false⟩⟩
    (by decide)
  exact ⟨h.1, h.2.1 rfl (by decide)⟩

/-! ## Claim C1 -/

theorem insertOne_dup {α : Type} {st : DbState α} {i : Chars} {r : DbRecord α}
    (hr : findOne st (selById i) = some r) (body : α) :
    insertOne st (some i) body [] = .constraintError r st := by
  unfold insertOne
  have hucs : withIdConstraint (some i) ([] : List (Sel α)) = [selById i] := rfl
  rw [hucs, List.map_cons, List.map_nil, hr]
  rfl

/-- C1 counterexample: the claim promises that upserting a stored document
with `sequence = prev + 1` succeeds.  But when the document carries a
`unique` attribute and the update changes its blinded value to a fresh one,
the uniqueness-constraint query returns no hit, `updateOne` throws
`ConstraintError` with `error.existing` undefined, and the `catch` block of
`docs.upsert` crashes with a `TypeError` while reading `e.existing._id` —
the call neither succeeds nor throws the promised `InvalidStateError`.  Here
the stored document has sequence 0 and unique attribute value `u1`, and the
upserted document has sequence 1 and fresh unique value `u2`. -/
theorem c1_counterexample :
    docsUpsert
      [⟨docRecordId (("e").data) zeroLocalId, 1,
        createDocBody (("e").data)
          ⟨zeroLocalId, 0, ("j").data,
            [⟨("h").data, [⟨("n").data, ("u1").data, true⟩]⟩]⟩ false⟩]
      (("e").data)
      ⟨zeroLocalId, 1, ("j").data,
        [⟨("h").data, [⟨("n").data, ("u2").data, true⟩]⟩]⟩ false =
      .typeError
        [⟨docRecordId (("e").data) zeroLocalId, 1,
          createDocBody (("e").data)
            ⟨zeroLocalId, 0, ("j").data,
              [⟨("h").data, [⟨("n").data, ("u1").data, true⟩]⟩]⟩ false⟩] := by
  decide

/-- C1 (amended): provided the upserted document carries no `unique`
attributes, then for every EDV id and stored record for the same document id
(with stored sequence `prev`), `docs.upsert` succeeds — replacing the record
at the next revision — exactly when `doc.sequence = prev + 1`; for every
other sequence value it throws `InvalidStateError` with message `Could not
update document. Sequence does not match.` and the store is unchanged. -/
theorem c1_amended_upsert_sequence_gate (st : DbState DocBody) (edvId : Chars)
    (doc : EdvDoc) (hwf : DbWf st) (hassert : assertDoc doc = .ok ())
    (hnouniq : docUniqueAttributes doc = []) (r : DbRecord DocBody)
    (hr : findOne st (selById (docRecordId (parseLocalId edvId) doc.id)) = some r) :
    (doc.sequence = r.body.doc.sequence + 1 →
      docsUpsert st edvId doc false =
        .ok ⟨docRecordId (parseLocalId edvId) doc.id, r._rev + 1,
            createDocBody edvId doc false⟩
          (st.map fun r0 =>
            if r0._id == docRecordId (parseLocalId edvId) doc.id then
              ⟨docRecordId (parseLocalId edvId) doc.id, r._rev + 1,
                createDocBody edvId doc false⟩
            else r0)) ∧
    (doc.sequence ≠ r.body.doc.sequence + 1 →
      docsUpsert st edvId doc false = .invalidState docSequenceMessage st) := by
  set recId := docRecordId (parseLocalId edvId) doc.id with hrecid
  set body := createDocBody edvId doc false with hbody
  set sel : Sel DocBody :=
    (fun rr => rr._id == recId &&
      ((rr.body.doc.sequence : Int) == (doc.sequence : Int) - 1)) with hseldef
  have hidr : r._id = recId := by
    have := List.find?_some hr
    simpa [selById] using this
  have hred : docsUpsert st edvId doc false =
      (match updateOne st (some recId) body sel true
          (docUniqueConstraintSels (parseLocalId edvId) body.uniqueAttributes) with
        | .ok r0 st' => .ok r0 st'
        | .noMatch st' => .typeError st'
        | .constraintError msg (some ex) st' =>
          if ex._id = recId then .invalidState docSequenceMessage st'
          else .constraintError msg (some ex) st'
        | .constraintError _ none st' => .typeError st'
        | .diverge => .diverge) := by
    unfold docsUpsert
    rw [hassert]
  have hucs2 : docUniqueConstraintSels (parseLocalId edvId) body.uniqueAttributes =
      ([] : List (Sel DocBody)) := by
    rw [hbody]
    simp [createDocBody, docUniqueConstraintSels, hnouniq]
  rw [hucs2] at hred
  have hselr : ∀ rr : DbRecord DocBody, sel rr = true ↔
      (rr._id = recId ∧
        (rr.body.doc.sequence : Int) = (doc.sequence : Int) - 1) := by
    intro rr
    rw [hseldef]
    simp
  constructor
  · intro hseq
    have hselr2 : sel r = true := by
      rw [hselr]
      exact ⟨hidr, by omega⟩
    have hfound : findOne st sel = some r :=
      findOne_unique_sel hwf (fun x hx => ((hselr x).mp hx).1) (List.mem_of_find?_eq_some hr) hselr2
    rw [hred, updateOne_found_own_id hwf hfound hidr body true]
  · intro hseq
    have hnone : findOne st sel = none := by
      rw [findOne_eq_none_iff]
      intro rr hrr
      cases hcase : sel rr
      · rfl
      · exfalso
        obtain ⟨hid2, hseq2⟩ := (hselr rr).mp hcase
        have : rr = r := mem_id_unique hwf hrr (List.mem_of_find?_eq_some hr)
          (hid2.trans hidr.symm)
        subst this
        omega
    have hupd : updateOne st (some recId) body sel true [] =
        .constraintError insertConstraintMessage (some r) st := by
      unfold updateOne
      rw [hnone, if_pos rfl, insertOne_dup hr body]
    rw [hred, hupd]
    simp [hidr]

/-- Witness for the amended C1: a stored document at sequence 0 without
unique attributes; upserting at sequence 1 replaces the record at revision 2
and upserting at sequence 5 throws the `InvalidStateError`. -/
theorem c1_amended_upsert_sequence_gate_witness :
    docsUpsert
        [⟨docRecordId (("e").data) zeroLocalId, 1,
          createDocBody (("e").data) ⟨zeroLocalId, 0, ("j").data, []⟩ false⟩]
        (("e").data) ⟨zeroLocalId, 1, ("j").data, []⟩ false =
      .ok ⟨docRecordId (("e").data) zeroLocalId, 2,
          createDocBody (("e").data) ⟨zeroLocalId, 1, ("j").data, []⟩ false⟩
        [⟨docRecordId (("e").data) zeroLocalId, 2,
          createDocBody (("e").data) ⟨zeroLocalId, 1, ("j").data, []⟩ false⟩] ∧
    docsUpsert
        [⟨docRecordId (("e").data) zeroLocalId, 1,
          createDocBody (("e").data) ⟨zeroLocalId, 0, ("j").data, []⟩ false⟩]
        (("e").data) ⟨zeroLocalId, 5, ("j").data, []⟩ false =
      .invalidState docSequenceMessage
        [⟨docRecordId (("e").data) zeroLocalId, 1,
          createDocBody (("e").data) ⟨zeroLocalId, 0, ("j").data, []⟩ false⟩] := by
  constructor
  · have h := (c1_amended_upsert_sequence_gate
      [⟨docRecordId (("e").data) zeroLocalId, 1,
        createDocBody (("e").data) ⟨zeroLocalId, 0, ("j").data, []⟩ false⟩]
      (("e").data) ⟨zeroLocalId, 1, ("j").data, []⟩ (by decide) (by decide) rfl
      ⟨docRecordId (("e").data) zeroLocalId, 1,
        createDocBody (("e").data) ⟨zeroLocalId, 0, ("j").data, []⟩ false⟩
      (by decide)).1 (by decide)
    exact h
  · have h := (c1_amended_upsert_sequence_gate
      [⟨docRecordId (("e").data) zeroLocalId, 1,
        createDocBody (("e").data) ⟨zeroLocalId, 0, ("j").data, []⟩ false⟩]
      (("e").data) ⟨zeroLocalId, 5, ("j").data, []⟩ (by decide) (by decide) rfl
      ⟨docRecordId (("e").data) zeroLocalId, 1,
        createDocBody (("e").data) ⟨zeroLocalId, 0, ("j").data, []⟩ false⟩
      (by decide)).2 (by decide)
    exact h

/-! ## Claim C6 -/

/-- C6: for every `edvId` and every valid `edvQuery`, `docs.createQuery`
returns, for an `equals` query, a selector carrying `localEdvId`, the planner
hint `attributes: {$gt: null}` and one `$or` branch
`{attributes: {$all: [...]}}` per `equals` entry whose elements are
`encodeURIComponent(index) + ":" + encodeURIComponent(name) + ":" +
encodeURIComponent(value)`, with `options.use_index = ['edv-doc',
'attributes']`; and for a `has` query a selector carrying `localEdvId` and
`attributeNames: {$all: [encodeURIComponent(index) + ":" +
encodeURIComponent(name)]}` with `options.use_index = ['edv-doc',
'attributes.name']`. -/
theorem c6_create_query (edvId : Chars) (q : EdvQueryInput)
    (hvalid : assertEdvQuery q = none) :
    (∀ eqs, q.equals = some eqs →
      createQuery edvId q = .ok
        { selLocalEdvId := parseLocalId edvId
          selAttributesGtNull := true
          selOr := some (eqs.map fun e =>
            e.map fun nv =>
              encodeURIComponent q.index ++ ':' :: encodeURIComponent nv.1 ++
                ':' :: encodeURIComponent nv.2)
          selAttributeNamesAll := none
          use_index := [("edv-doc").data, ("attributes").data] }) ∧
    (∀ hs, q.has = some hs →
      createQuery edvId q = .ok
        { selLocalEdvId := parseLocalId edvId
          selAttributesGtNull := false
          selOr := none
          selAttributeNamesAll := some (hs.map fun name =>
            encodeURIComponent q.index ++ ':' :: encodeURIComponent name)
          use_index := [("edv-doc").data, ("attributes.name").data] }) := by
  constructor
  · intro eqs heq
    unfold createQuery
    rw [hvalid, heq]
  · intro hs hhs
    have heqnone : q.equals = none := by
      cases heq2 : q.equals with
      | none => rfl
      | some e2 =>
        exfalso
        unfold assertEdvQuery at hvalid
        rw [heq2, hhs] at hvalid
        simp at hvalid
    unfold createQuery
    rw [hvalid, heqnone, hhs]

/-- Witness for C6: an `equals` query `[{n: v}]` and a `has` query `[n]` on
index `i`, compiled against EDV id `e`. -/
theorem c6_create_query_witness :
    createQuery (("e").data)
        ⟨("i").data, some [[((("n").data), (("v").data))]], none, none, none⟩ =
      .ok
        { selLocalEdvId := ("e").data
          selAttributesGtNull := true
          selOr := some [[("i:n:v").data]]
          selAttributeNamesAll := none
          use_index := [("edv-doc").data, ("attributes").data] } ∧
    createQuery (("e").data)
        ⟨("i").data, none, some [("n").data], none, none⟩ =
      .ok
        { selLocalEdvId := ("e").data
          selAttributesGtNull := false
          selOr := none
          selAttributeNamesAll := some [("i:n").data]
          use_index := [("edv-doc").data, ("attributes.name").data] } := by
  constructor
  · have h := (c6_create_query (("e").data)
      ⟨("i").data, some [[((("n").data), (("v").data))]], none, none, none⟩
      rfl).1 [[((("n").data), (("v").data))]] rfl
    simpa using h
  · have h := (c6_create_query (("e").data)
      ⟨("i").data, none, some [("n").data], none, none⟩ rfl).2 [("n").data] rfl
    simpa using h

/-! ## Lemmas: secrets -/

theorem multihashEncode_ok (data : Bytes) (hl : data.length < 128) :
    multihashEncode 0 data 'z' =
      .ok ('z' :: base58Encode (0 :: data.length :: data)) := by
  simp [multihashEncode, Nat.not_le.mpr hl]

theorem multihashDecode_ok (data : Bytes) (hb : IsBytes data)
    (hl : data.length < 128) :
    multihashDecode 0 data.length ('z' :: base58Encode (0 :: data.length :: data)) =
      .ok data :=
  (multihash_roundtrip 0 data (by norm_num) hb hl).2

theorem setBytes_isBytes {buf src : Bytes} (hb : IsBytes buf) (hs : IsBytes src)
    (off : Nat) : IsBytes (setBytes buf off src) := by
  intro b hbmem
  rw [setBytes] at hbmem
  rcases List.mem_append.mp hbmem with h | h
  · rcases List.mem_append.mp h with h2 | h2
    · exact hb b (List.mem_of_mem_take h2)
    · exact hs b h2
  · exact hb b (List.mem_of_mem_drop h)

theorem setBytes_length (buf : Bytes) (off : Nat) (src : Bytes) :
    (setBytes buf off src).length =
      min off buf.length + src.length + (buf.length - (off + src.length)) := by
  simp [setBytes]
  omega

/-! ## Claim C2 -/

/-- C2: for every id, password and cipherVersion in {recommended, fips},
generating a secret configuration and decrypting it with the same password
yields a non-null `{hmac, keyAgreementKey, cipherVersion}` whose
`cipherVersion` equals the one used at generation and whose key ids equal
`config.hmacId` and `config.keyAgreementKeyId`.  The cryptographic
primitives are abstracted by `CryptoSuite`; the hypotheses state the AES-KW
contract (unwrap inverts wrap, wrapping adds 8 bytes, outputs are bytes) and
the sizes of the fresh randomness (16-byte salt, 32-byte KDK secret, raw
P-256 key halves of 32 and 33 bytes). -/
theorem c2_secrets_generate_decrypt (cs : CryptoSuite) (ent : GenEntropy)
    (id password cipherVersion : Chars)
    (hroundtrip : ∀ k d, cs.aeskwUnwrap k (cs.aeskwWrap k d) = .ok d)
    (hwraplen : ∀ k d, (cs.aeskwWrap k d).length = d.length + 8)
    (hwrapbytes : ∀ k d, IsBytes d → IsBytes (cs.aeskwWrap k d))
    (hsaltlen : ent.salt.length = 16) (hsaltbytes : IsBytes ent.salt)
    (hkdklen : ent.kdkSecret.length = 32) (hkdkbytes : IsBytes ent.kdkSecret)
    (hseclen : ent.p256SecretKey.length = 32)
    (hsecbytes : IsBytes ent.p256SecretKey)
    (hpublen : ent.p256PublicKey.length = 33)
    (hpubbytes : IsBytes ent.p256PublicKey)
    (hcipher : cipherVersion = ("recommended").data ∨
      cipherVersion = ("fips").data) :
    ∃ res d,
      secretsGenerate cs ent id (("1").data) password cipherVersion = .ok res ∧
      secretsDecrypt cs res.config password = .ok (some d) ∧
      d.cipherVersion = cipherVersion ∧
      d.hmac.id = some res.config.hmacId ∧
      d.keyAgreementKey.keyId = some res.config.keyAgreementKeyId := by
  have hsaltenc := multihashEncode_ok ent.salt (by omega)
  set kek := deriveKekSecret cs password ent.salt with hkekdef
  set wk := cs.aeskwWrap kek ent.kdkSecret with hwkdef
  have hwklen : wk.length = 40 := by rw [hwkdef, hwraplen, hkdklen]
  have hwkenc := multihashEncode_ok wk (by omega)
  have hsaltdec : multihashDecode 0 saltSizeV1
      ('z' :: base58Encode (0 :: ent.salt.length :: ent.salt)) = .ok ent.salt := by
    have h16 : saltSizeV1 = ent.salt.length := by rw [hsaltlen]; rfl
    rw [h16]
    exact multihashDecode_ok ent.salt hsaltbytes (by omega)
  have hwkdec : multihashDecode 0 wrappedKeySizeV1
      ('z' :: base58Encode (0 :: wk.length :: wk)) = .ok wk := by
    have h40 : wrappedKeySizeV1 = wk.length := by rw [hwklen]; rfl
    rw [h40]
    exact multihashDecode_ok wk
      (hwkdef ▸ hwrapbytes kek ent.kdkSecret hkdkbytes) (by omega)
  have hunwrap : kekUnwrapKey cs kek wk = some ent.kdkSecret := by
    rw [kekUnwrapKey, hwkdef, hroundtrip]
  rcases hcipher with rfl | rfl
  · -- recommended
    refine ⟨⟨⟨some ((("urn:uuid:").data) ++ ent.hmacUuid),
        cs.hmacSha256 ent.kdkSecret (utf8Encode (("hmac").data))⟩,
      .x25519 (some ((("urn:uuid:").data) ++ ent.kakUuid))
        (cs.hmacSha256 ent.kdkSecret (utf8Encode (("keyAgreementKey").data))),
      ⟨id, (("urn:uuid:").data) ++ ent.hmacUuid, (("urn:uuid:").data) ++ ent.kakUuid,
        ⟨("1").data, 'z' :: base58Encode (0 :: ent.salt.length :: ent.salt),
          'z' :: base58Encode (0 :: wk.length :: wk), none⟩, 0⟩⟩,
      ⟨⟨some ((("urn:uuid:").data) ++ ent.hmacUuid),
        cs.hmacSha256 ent.kdkSecret (utf8Encode (("hmac").data))⟩,
      .x25519 (some ((("urn:uuid:").data) ++ ent.kakUuid))
        (cs.hmacSha256 ent.kdkSecret (utf8Encode (("keyAgreementKey").data))),
      ("recommended").data⟩, ?_, ?_, rfl, rfl, rfl⟩
    · simp only [secretsGenerate]
      rw [if_neg (by decide)]
      simp only [hsaltenc, hwkenc, if_neg (show ¬ (("recommended").data = ("fips").data) by decide)]
      simp only [deriveKeys]
      rfl
    · simp only [secretsDecrypt, assertSecretConfig]
      rw [if_neg (by decide)]
      rw [if_neg (show ¬ ¬ (sequenceOk 0 = true) by simp [sequenceOk, maxSafeInteger])]
      simp only [hsaltdec, hwkdec, hunwrap, deriveKeys]
      rfl
  · -- fips
    set blob := setBytes (setBytes (List.replicate unwrappedKakSize 0) 0
      ent.p256SecretKey) ent.p256SecretKey.length ent.p256PublicKey with hblobdef
    have h1 : (setBytes (List.replicate unwrappedKakSize 0) 0
        ent.p256SecretKey).length = 72 := by
      rw [setBytes_length]
      simp [hseclen, unwrappedKakSize]
    have hbloblen : blob.length = 72 := by
      rw [hblobdef, setBytes_length, h1, hseclen, hpublen]
      omega
    set wkak := cs.aeskwWrap kek blob with hwkakdef
    have hwkaklen : wkak.length = 80 := by
      rw [hwkakdef, hwraplen, hbloblen]
    have hwkakenc := multihashEncode_ok wkak (by omega)
    have hwkakdec : multihashDecode 0 wrappedKakSize
        ('z' :: base58Encode (0 :: wkak.length :: wkak)) = .ok wkak := by
      have h80 : wrappedKakSize = wkak.length := by rw [hwkaklen]; rfl
      rw [h80]
      exact multihashDecode_ok wkak
        (hwkakdef ▸ hwrapbytes kek blob (hblobdef ▸
          setBytes_isBytes
            (setBytes_isBytes (fun b hb => by
                have := List.eq_of_mem_replicate hb
                omega) hsecbytes 0)
            hpubbytes ent.p256SecretKey.length)) (by omega)
    have hunwrapkak : kekUnwrapKey cs kek wkak = some blob := by
      rw [kekUnwrapKey, hwkakdef, hroundtrip]
    refine ⟨⟨⟨some ((("urn:uuid:").data) ++ ent.hmacUuid),
        cs.hmacSha256 ent.kdkSecret (utf8Encode (("hmac").data))⟩,
      .p256 (some ((("urn:uuid:").data) ++ ent.kakUuid))
        (blob.take 32) ((blob.drop 32).take 33),
      ⟨id, (("urn:uuid:").data) ++ ent.hmacUuid, (("urn:uuid:").data) ++ ent.kakUuid,
        ⟨("1").data, 'z' :: base58Encode (0 :: ent.salt.length :: ent.salt),
          'z' :: base58Encode (0 :: wk.length :: wk),
          some ('z' :: base58Encode (0 :: wkak.length :: wkak))⟩, 0⟩⟩,
      ⟨⟨some ((("urn:uuid:").data) ++ ent.hmacUuid),
        cs.hmacSha256 ent.kdkSecret (utf8Encode (("hmac").data))⟩,
      .p256 (some ((("urn:uuid:").data) ++ ent.kakUuid))
        (blob.take 32) ((blob.drop 32).take 33),
      ("fips").data⟩, ?_, ?_, rfl, rfl, rfl⟩
    · simp only [secretsGenerate]
      rw [if_neg (by decide)]
      simp only [hsaltenc, hwkenc, hwkakenc, eq_self_iff_true, if_true]
      simp only [deriveKeys, hwkakdec, hunwrapkak]
      rfl
    · simp only [secretsDecrypt, assertSecretConfig]
      rw [if_neg (by decide)]
      rw [if_neg (show ¬ ¬ (sequenceOk 0 = true) by simp [sequenceOk, maxSafeInteger])]
      simp only [hsaltdec, hwkdec, hunwrap, deriveKeys, hwkakdec, hunwrapkak]
      rfl

/-- Witness for C2: the toy crypto suite and concrete entropy, generating and
decrypting a `recommended` secret for id `id` and password `pw`. -/
theorem c2_secrets_generate_decrypt_witness :
    ∃ res d,
      secretsGenerate toySuite toyEntropy (("id").data) (("1").data)
        (("pw").data) (("recommended").data) = .ok res ∧
      secretsDecrypt toySuite res.config (("pw").data) = .ok (some d) ∧
      d.cipherVersion = ("recommended").data ∧
      d.hmac.id = some res.config.hmacId ∧
      d.keyAgreementKey.keyId = some res.config.keyAgreementKeyId := by
  have hrt : ∀ k d, toySuite.aeskwUnwrap k (toySuite.aeskwWrap k d) = .ok d := by
    intro k d
    have h1 : (8 : Nat) ≤ (d ++ List.replicate 8 0).length := by simp
    have hl : (d ++ List.replicate 8 0).length - 8 = d.length := by simp
    have h2 : (d ++ List.replicate 8 0).drop ((d ++ List.replicate 8 0).length - 8) =
        List.replicate 8 0 := by
      rw [hl, List.drop_left]
    have h3 : (d ++ List.replicate 8 0).take ((d ++ List.replicate 8 0).length - 8) =
        d := by
      rw [hl, List.take_left]
    simp only [toySuite]
    rw [if_pos ⟨h1, h2⟩, h3]
  exact c2_secrets_generate_decrypt toySuite toyEntropy (("id").data)
    (("pw").data) (("recommended").data)
    hrt
    (by intro k d; simp [toySuite])
    (by
      intro k d hd b hb
      simp only [toySuite] at hb
      rcases List.mem_append.mp hb with h | h
      · exact hd b h
      · have := List.eq_of_mem_replicate h
        omega)
    (by decide) (by decide) (by decide) (by decide) (by decide) (by decide)
    (by decide) (by decide) (Or.inl rfl)

/-! ## Claim C3 -/

/-- C3: for every valid secret config and every password whose derived
key-encryption key fails to unwrap the stored `wrappedKey` (a wrong
password), `secrets.decrypt` resolves to `null` and never throws; in
particular `Kek.unwrapKey` resolves to `null` rather than raising when
unwrapping fails.  The hypotheses say the stored salt and wrapped key decode
(a well-formed stored config) and that the AES-KW unwrap of the stored
wrapped key under the derived KEK reports an integrity failure. -/
theorem c3_decrypt_wrong_password_null (cs : CryptoSuite)
    (config : SecretConfig) (password : Chars) (salt wk : Bytes) (emsg : Chars)
    (hassert : assertSecretConfig config = none)
    (hsalt : multihashDecode 0 saltSizeV1 config.secret.salt = .ok salt)
    (hwk : multihashDecode 0 wrappedKeySizeV1 config.secret.wrappedKey = .ok wk)
    (hfail : cs.aeskwUnwrap (deriveKekSecret cs password salt) wk = .error emsg) :
    kekUnwrapKey cs (deriveKekSecret cs password salt) wk = none ∧
    secretsDecrypt cs config password = .ok none := by
  have hkun : kekUnwrapKey cs (deriveKekSecret cs password salt) wk = none := by
    rw [kekUnwrapKey, hfail]
  refine ⟨hkun, ?_⟩
  simp only [secretsDecrypt, hassert, hsalt, hwk, hkun]

/-- Witness for C3: the toy suite with a stored wrapped key of forty `1`
bytes, whose toy AES-KW integrity check fails for every KEK. -/
theorem c3_decrypt_wrong_password_null_witness :
    kekUnwrapKey toySuite
      (deriveKekSecret toySuite (("pw").data) (List.replicate 16 2))
      (List.replicate 40 1) = none ∧
    secretsDecrypt toySuite
      ⟨("i").data, ("h").data, ("k").data,
        ⟨("1").data, 'z' :: base58Encode (0 :: 16 :: List.replicate 16 2),
          'z' :: base58Encode (0 :: 40 :: List.replicate 40 1), none⟩, 0⟩
      (("pw").data) = .ok none :=
  c3_decrypt_wrong_password_null toySuite
    ⟨("i").data, ("h").data, ("k").data,
      ⟨("1").data, 'z' :: base58Encode (0 :: 16 :: List.replicate 16 2),
        'z' :: base58Encode (0 :: 40 :: List.replicate 40 1), none⟩, 0⟩
    (("pw").data) (List.replicate 16 2) (List.replicate 40 1)
    (("integrity check failed").data)
    (by decide) (by decide) (by decide) (by decide)

end PouchEdv
